import Mathlib

/-!
# asyncusb: the libusb event bridge and the asynchronous transfer state machines

A shallow embedding of `include/jinx/usb/usb.hpp` and `usb.cpp`.

* `AsyncUSBAgent` mirrors libusb's poll descriptors into the reactor and re-arms one timer.
* `USBControlTransfer` and `USBBulkTransfer` submit one native transfer and resolve on completion.
* `transfer_message` is the description function of the `transfer` error category.

The reactor (`EventEngine`), libusb and `jinx::AsyncFunction` are external collaborators.
Their answers (return codes, allocation results, notifications) enter the model as explicit
arguments of the embedded functions, so every theorem quantifies over all of them.
-/

namespace jinx.usb

/-! ## Constants of `poll.h` and of the reactor -/

/-- The value of `POLLIN` in the system header `poll.h`. -/
def POLLIN : Nat := 0x001

/-- The value of `POLLOUT` in the system header `poll.h`. -/
def POLLOUT : Nat := 0x004

/-- The bit pattern of a C `short` (two's complement, 16 bits). -/
def shortBits (events : Int) : Nat := (events % 65536).toNat

/-- The watch flags of the reactor type the agent is instantiated with:
`EventEngine::IOFlagPersist`, `EventEngine::IOFlagRead`, `EventEngine::IOFlagWrite`. -/
structure IOFlags where
  IOFlagPersist : Nat
  IOFlagRead : Nat
  IOFlagWrite : Nat
deriving DecidableEq, Repr

/-- The C `struct timeval`. -/
structure timeval where
  tv_sec : Int
  tv_usec : Int
deriving DecidableEq, Repr

/-- The two static member functions the agent hands to the reactor as callbacks. -/
inductive Callback where
  | handle_io_event
  | handle_timer_event
deriving DecidableEq, Repr

/-- One call made on the reactor, with its arguments (handles are named by their address). -/
inductive ReactorCall where
  | add_io (flags : Nat) (handle : Nat) (fd : Int) (cb : Callback)
  | remove_io (handle : Nat)
  | add_timer (handle : Nat) (tv : timeval) (cb : Callback)
  | remove_timer (handle : Nat)
deriving DecidableEq, Repr

/-- Whether a call is one of the two timer calls of the reactor. -/
def ReactorCall.is_timer_call : ReactorCall → Bool
  | ReactorCall.add_timer _ _ _ => true
  | ReactorCall.remove_timer _ => true
  | _ => false

/-- Modelled from the spec: the reactor type `EventEngine`, a template parameter whose sources are
not part of the repository. It holds the calls received so far (oldest first), the descriptor
watches that are registered and the timers that are armed. -/
structure EventEngine where
  calls : List ReactorCall
  watches : List (Nat × Int × Nat)
  timers : List (Nat × timeval)
deriving DecidableEq, Repr

namespace EventEngine

/-- Modelled from the spec: the reactor call `add_io(flags, handle, descriptor, callback,
user_data)`. Its result is discarded by the agent; `ok` says whether the reactor accepted the
registration. -/
def add_io (eve : EventEngine) (ok : Bool) (flags : Nat) (handle : Nat) (fd : Int)
    (cb : Callback) : EventEngine :=
  { eve with
    calls := eve.calls ++ [ReactorCall.add_io flags handle fd cb]
    watches := if ok then (handle, fd, flags) :: eve.watches else eve.watches }

/-- Modelled from the spec: the reactor call `remove_io(handle)`, which cancels the watch of
the handle; its result is discarded by the agent. -/
def remove_io (eve : EventEngine) (handle : Nat) : EventEngine :=
  { eve with
    calls := eve.calls ++ [ReactorCall.remove_io handle]
    watches := eve.watches.filter (fun w => w.1 ≠ handle) }

/-- Modelled from the spec: the reactor call `add_timer(handle, deadline, callback, user_data)`.
When the reactor accepts it (`ok`) the handle is armed with the new deadline, which replaces an
earlier arming of the same handle; its result is discarded by the agent. -/
def add_timer (eve : EventEngine) (ok : Bool) (handle : Nat) (tv : timeval)
    (cb : Callback) : EventEngine :=
  { eve with
    calls := eve.calls ++ [ReactorCall.add_timer handle tv cb]
    timers := if ok then (handle, tv) :: eve.timers.filter (fun t => t.1 ≠ handle)
              else eve.timers }

/-- Modelled from the spec: the reactor call `remove_timer(handle)`, after which the handle is
not armed; its result is discarded by the agent. -/
def remove_timer (eve : EventEngine) (handle : Nat) : EventEngine :=
  { eve with
    calls := eve.calls ++ [ReactorCall.remove_timer handle]
    timers := eve.timers.filter (fun t => t.1 ≠ handle) }

/-- The timer calls the reactor has received, oldest first. -/
def timer_calls (eve : EventEngine) : List ReactorCall :=
  eve.calls.filter ReactorCall.is_timer_call

/-- How many armed timers of the reactor belong to `handle`. -/
def armed_count (eve : EventEngine) (handle : Nat) : Nat :=
  (eve.timers.filter (fun t => t.1 = handle)).length

/-- Whether `handle` is armed. -/
def armed (eve : EventEngine) (handle : Nat) : Bool :=
  eve.timers.any (fun t => t.1 = handle)

end EventEngine

/-! ## The watched-descriptor map `_fds` -/

/-- The lookup `_fds.find(usb_fd)`: the mapped handle, or `none` for `end()`. -/
def fds_find : List (Int × Nat) → Int → Option Nat
  | [], _ => none
  | (k, v) :: m, fd => if k = fd then some v else fds_find m fd

/-- The insertion `_fds.emplace(usb_fd, handle)`: no effect when the key is present. -/
def fds_emplace (m : List (Int × Nat)) (fd : Int) (handle : Nat) : List (Int × Nat) :=
  match fds_find m fd with
  | some _ => m
  | none => (fd, handle) :: m

/-- The removal `_fds.erase(iter)` of the entry that `find(usb_fd)` returned. -/
def fds_erase : List (Int × Nat) → Int → List (Int × Nat)
  | [], _ => []
  | (k, v) :: m, fd => if k = fd then m else (k, v) :: fds_erase m fd

/-- The keys of the map, in storage order. -/
def fds_keys (m : List (Int × Nat)) : List Int := m.map Prod.fst

/-! ## `AsyncUSBAgent` -/

/-- The data members of `AsyncUSBAgent`. `_eve` is the reactor the agent refers to, `_fds` maps a
descriptor to the address of its heap-allocated watch handle, `_timeout_handle` is the address
of the timer handle member and `heap_next` is the address the next `new` returns. -/
structure AsyncUSBAgent where
  _eve : EventEngine
  _fds : List (Int × Nat)
  _should_handle_timeouts : Bool
  _timeout_handle : Nat
  heap_next : Nat
deriving DecidableEq, Repr

/-- The flag word built in `fd_added_cb` from the subsystem's event mask. -/
def watch_flags (F : IOFlags) (events : Int) : Nat :=
  let flags := F.IOFlagPersist
  let flags := if shortBits events &&& POLLIN ≠ 0 then flags ||| F.IOFlagRead else flags
  let flags := if shortBits events &&& POLLOUT ≠ 0 then flags ||| F.IOFlagWrite else flags
  flags

/-- The callback `fd_added_cb(usb_fd, events, self)`. `add_io_ok` is the outcome of the reactor
call, which the code ignores. -/
def fd_added_cb (F : IOFlags) (add_io_ok : Bool) (usb_fd : Int) (events : Int)
    (self : AsyncUSBAgent) : AsyncUSBAgent :=
  match fds_find self._fds usb_fd with
  | some _ => self
  | none =>
    let handle := self.heap_next
    { self with
      _fds := fds_emplace self._fds usb_fd handle
      heap_next := handle + 1
      _eve := self._eve.add_io add_io_ok (watch_flags F events) handle usb_fd
                Callback.handle_io_event }

/-- The callback `fd_removed_cb(usb_fd, self)`. -/
def fd_removed_cb (usb_fd : Int) (self : AsyncUSBAgent) : AsyncUSBAgent :=
  match fds_find self._fds usb_fd with
  | none => self
  | some handle =>
    { self with
      _eve := self._eve.remove_io handle
      _fds := fds_erase self._fds usb_fd }

/-- A notification libusb delivers through the pollfd notifiers. An added notification carries
the outcome of the reactor registration it triggers. -/
inductive Notification where
  | fd_added (usb_fd : Int) (events : Int) (add_io_ok : Bool)
  | fd_removed (usb_fd : Int)
deriving DecidableEq, Repr

/-- Dispatch of one notification to the callback installed for it. -/
def notify (F : IOFlags) (self : AsyncUSBAgent) : Notification → AsyncUSBAgent
  | Notification.fd_added usb_fd events ok => fd_added_cb F ok usb_fd events self
  | Notification.fd_removed usb_fd => fd_removed_cb usb_fd self

/-- Delivery of a sequence of notifications, oldest first. -/
def notify_all (F : IOFlags) (self : AsyncUSBAgent) (ns : List Notification) : AsyncUSBAgent :=
  ns.foldl (notify F) self

/-- The constructor. `init_ret` is the result of `libusb_init`, `handle_timeouts_ret` the result of
`libusb_pollfds_handle_timeouts`, `pollfds` what `libusb_get_pollfds` lists (descriptor, events,
outcome of the reactor registration). `none` stands for the thrown `runtime_error`. -/
def AsyncUSBAgent.create (F : IOFlags) (eve : EventEngine) (timer_handle heap : Nat)
    (init_ret handle_timeouts_ret : Int) (pollfds : List (Int × Int × Bool)) :
    Option AsyncUSBAgent :=
  if init_ret < 0 then none
  else
    let self : AsyncUSBAgent :=
      { _eve := eve, _fds := [], _should_handle_timeouts := decide (handle_timeouts_ret = 0),
        _timeout_handle := timer_handle, heap_next := heap }
    some (pollfds.foldl (fun a p => fd_added_cb F p.2.2 p.1 p.2.1 a) self)

/-- The destructor: `libusb_exit` runs first and delivers `teardown`, then `jinx_assert` checks
that `_fds` is empty. `none` stands for the failed assertion, which the specification makes a
fatal abort (the macro `jinx_assert` is not part of the repository). -/
def AsyncUSBAgent.destroy (F : IOFlags) (teardown : List Notification)
    (self : AsyncUSBAgent) : Option AsyncUSBAgent :=
  let self := notify_all F self teardown
  if self._fds.isEmpty then some self else none

/-- What libusb does and answers during one pass of event processing: the notifications
delivered inside `libusb_handle_events_timeout`, the result and the `timeval` of the following
`libusb_get_next_timeout`, and the outcome of the reactor call `add_timer` if one is made. -/
structure EventsPass where
  notes : List Notification
  next_ret : Int
  next_tv : timeval
  add_timer_ok : Bool
deriving DecidableEq, Repr

/-- The member function `update_timeout`. -/
def update_timeout (p : EventsPass) (self : AsyncUSBAgent) : AsyncUSBAgent :=
  if !self._should_handle_timeouts then self
  else if p.next_ret > 0 then
    { self with
      _eve := self._eve.add_timer p.add_timer_ok self._timeout_handle p.next_tv
                Callback.handle_timer_event }
  else
    { self with _eve := self._eve.remove_timer self._timeout_handle }

/-- The callback `handle_io_event`: one zero-timeout pass of libusb, then `update_timeout`. -/
def handle_io_event (F : IOFlags) (p : EventsPass) (self : AsyncUSBAgent) : AsyncUSBAgent :=
  update_timeout p (notify_all F self p.notes)

/-- The callback `handle_timer_event`: one zero-timeout pass of libusb, then `update_timeout`. -/
def handle_timer_event (F : IOFlags) (p : EventsPass) (self : AsyncUSBAgent) : AsyncUSBAgent :=
  update_timeout p (notify_all F self p.notes)

/-! ## The error categories of `JINX_ERROR_DEFINE` -/

/-- The value of `LIBUSB_ERROR_NO_DEVICE` in `libusb.h`, as all the `LIBUSB_` constants below. -/
def LIBUSB_ERROR_NO_DEVICE : Int := -4

/-- The value of `LIBUSB_ERROR_NO_MEM`. -/
def LIBUSB_ERROR_NO_MEM : Int := -11

/-- The value of `LIBUSB_TRANSFER_COMPLETED`. -/
def LIBUSB_TRANSFER_COMPLETED : Int := 0

/-- The value of `LIBUSB_TRANSFER_ERROR`. -/
def LIBUSB_TRANSFER_ERROR : Int := 1

/-- The value of `LIBUSB_TRANSFER_TIMED_OUT`. -/
def LIBUSB_TRANSFER_TIMED_OUT : Int := 2

/-- The value of `LIBUSB_TRANSFER_CANCELLED`. -/
def LIBUSB_TRANSFER_CANCELLED : Int := 3

/-- The value of `LIBUSB_TRANSFER_STALL`. -/
def LIBUSB_TRANSFER_STALL : Int := 4

/-- The value of `LIBUSB_TRANSFER_NO_DEVICE`. -/
def LIBUSB_TRANSFER_NO_DEVICE : Int := 5

/-- The value of `LIBUSB_TRANSFER_OVERFLOW`. -/
def LIBUSB_TRANSFER_OVERFLOW : Int := 6

/-- The two error categories: `usb` carries an `enum libusb_error`, `transfer` carries an
`enum libusb_transfer_status`. -/
inductive Category where
  | usb
  | transfer
deriving DecidableEq, Repr

/-- An error value: its category and the numeric code it carries. -/
structure Error where
  category : Category
  value : Int
deriving DecidableEq, Repr

/-- The overload `make_error(enum libusb_error)`. -/
def make_error_usb (code : Int) : Error := { category := Category.usb, value := code }

/-- The overload `make_error(enum libusb_transfer_status)`. -/
def make_error_transfer (status : Int) : Error :=
  { category := Category.transfer, value := status }

/-- The body of `JINX_ERROR_IMPLEMENT(transfer, ...)`: the description of a status code. -/
def transfer_message (code : Int) : String :=
  if code = LIBUSB_TRANSFER_COMPLETED then "transfer completed"
  else if code = LIBUSB_TRANSFER_ERROR then "transfer error"
  else if code = LIBUSB_TRANSFER_TIMED_OUT then "transfer timeout"
  else if code = LIBUSB_TRANSFER_CANCELLED then "transfer cancelled"
  else if code = LIBUSB_TRANSFER_STALL then "transfer stall"
  else if code = LIBUSB_TRANSFER_NO_DEVICE then "transfer no device"
  else if code = LIBUSB_TRANSFER_OVERFLOW then "transfer overflow"
  else "unknown transfer status"

/-- The description of an error value: `JINX_ERROR_IMPLEMENT(usb, ...)` asks libusb for the name
of the code (`libusb_error_name`), `JINX_ERROR_IMPLEMENT(transfer, ...)` is `transfer_message`. -/
def Error.message (libusb_error_name : Int → String) (e : Error) : String :=
  match e.category with
  | Category.usb => libusb_error_name e.value
  | Category.transfer => transfer_message e.value

/-! ## Durations and the millisecond conversion -/

/-- A fraction `num / den` of integers, the exact value of a count or of an intermediate
result. -/
structure Frac where
  num : Int
  den : Nat
deriving DecidableEq, Repr

/-- A `std::chrono::duration<Rep, Period>`, `count` ticks of `num / den` seconds each, by the
kind of its representation `Rep`: `signed` for a signed integer of at most 64 bits or an
unsigned one of fewer than 64 bits, `unsigned64` for an unsigned integer of 64 bits, `floating`
for a binary floating-point type with `precision` significand bits (24 for `float`, 53 for
`double`), whose count is `mantissa * 2 ^ exponent`. -/
inductive Duration where
  | signed (count : Int) (num den : Nat)
  | unsigned64 (count : Nat) (num den : Nat)
  | floating (precision : Nat) (mantissa exponent : Int) (num den : Nat)
deriving DecidableEq, Repr

namespace Duration

/-- The numerator of the period. -/
def num : Duration → Nat
  | signed _ n _ => n
  | unsigned64 _ n _ => n
  | floating _ _ _ n _ => n

/-- The denominator of the period. -/
def den : Duration → Nat
  | signed _ _ d => d
  | unsigned64 _ _ d => d
  | floating _ _ _ _ d => d

/-- The exact value of the count. -/
def value : Duration → Frac
  | signed c _ _ => { num := c, den := 1 }
  | unsigned64 c _ _ => { num := (c : Int), den := 1 }
  | floating _ m e _ _ =>
    if 0 ≤ e then { num := m * 2 ^ e.toNat, den := 1 } else { num := m, den := 2 ^ (-e).toNat }

end Duration

/-- Two's complement wrap of an integer into 64 signed bits. -/
def wrap_int64 (x : Int) : Int := (x + 9223372036854775808) % 18446744073709551616 - 9223372036854775808

/-- The numerator of the reduced ratio `Period / milli` that `duration_cast` multiplies by. -/
def cf_num (num den : Nat) : Nat := num * 1000 / Nat.gcd (num * 1000) den

/-- The denominator of the reduced ratio `Period / milli` that `duration_cast` divides by. -/
def cf_den (num den : Nat) : Nat := den / Nat.gcd (num * 1000) den

/-- The number of binary digits of `n`, computed with `fuel` halvings at most. -/
def bit_length : Nat → Nat → Nat
  | 0, _ => 0
  | fuel + 1, n => if n = 0 then 0 else bit_length fuel (n / 2) + 1

/-- Rounding of the exact value `x` to the nearest number with `p` significand bits, ties to the
even significand, as IEEE 754 arithmetic rounds the exact result of an operation (the exponent
range is not limited). -/
def round_fp (p : Nat) (x : Frac) : Frac :=
  let n := x.num.natAbs
  if n = 0 ∨ x.den = 0 then { num := 0, den := 1 }
  else
    let e0 : Int := (bit_length n n : Int) - (bit_length x.den x.den : Int)
    let below : Bool := if 0 ≤ e0 then decide (n < 2 ^ e0.toNat * x.den)
      else decide (n * 2 ^ (-e0).toNat < x.den)
    let e : Int := if below then e0 - 1 else e0
    let u : Int := e - (p : Int) + 1
    let sn : Nat := n * 2 ^ (-u).toNat
    let sd : Nat := x.den * 2 ^ u.toNat
    let f : Nat := sn / sd
    let r : Nat := sn % sd
    let m : Nat := if 2 * r < sd then f else if sd < 2 * r then f + 1
      else if f % 2 = 0 then f else f + 1
    { num := (if x.num < 0 then -1 else 1) * ((m * 2 ^ u.toNat : Nat) : Int),
      den := 2 ^ (-u).toNat }

/-- The floating-point computation of `duration_cast` on the count `x`, as the C++ standard
lays it out: no operation when the ratio is 1, a multiplication or a division alone when the
other part of the ratio is 1, the multiplication followed by the division otherwise, each
operand converted to the floating-point type and each result rounded. -/
def fp_cast (p : Nat) (x : Frac) (n d : Nat) : Frac :=
  let fn := round_fp p { num := (n : Int), den := 1 }
  let fd := round_fp p { num := (d : Int), den := 1 }
  if n = 1 ∧ d = 1 then x
  else if d = 1 then round_fp p { num := x.num * fn.num, den := x.den * fn.den }
  else if n = 1 then round_fp p { num := x.num * (fd.den : Int), den := x.den * fd.num.natAbs }
  else
    let y := round_fp p { num := x.num * fn.num, den := x.den * fn.den }
    round_fp p { num := y.num * (fd.den : Int), den := y.den * fd.num.natAbs }

/-- The expression `std::chrono::duration_cast<std::chrono::milliseconds>(timeout).count()` of
the C++ standard library. The count is multiplied by the numerator and divided by the
denominator of the reduced ratio `Period / milli` in the common type of the representation and
the 64-bit signed integer: 64-bit signed arithmetic with truncating division, 64-bit unsigned
arithmetic, or floating-point arithmetic; the result is converted to the 64-bit signed count of
milliseconds, a floating-point result by truncation toward zero. -/
def duration_cast_ms : Duration → Int
  | Duration.signed c n d =>
    wrap_int64 (Int.tdiv (wrap_int64 (c * (cf_num n d : Int))) (cf_den n d : Int))
  | Duration.unsigned64 c n d =>
    wrap_int64 (((c % 18446744073709551616 * cf_num n d % 18446744073709551616
      / cf_den n d : Nat) : Int))
  | Duration.floating p m e n d =>
    let y := fp_cast p (Duration.floating p m e n d).value (cf_num n d) (cf_den n d)
    wrap_int64 (Int.tdiv y.num (y.den : Int))

/-- The initialisation `unsigned int timeout_ms = ...count()`: conversion to 32 unsigned bits. -/
def timeout_ms (d : Duration) : Nat := (duration_cast_ms d % 4294967296).toNat

/-- A pointer to bytes: `none` is the null pointer, `some bs` points to memory holding `bs`. -/
abbrev BytePtr := Option (List Nat)

/-- The argument type `jinx::SliceRead`: a data pointer and a size. -/
structure SliceRead where
  data : BytePtr
  size : Nat
deriving DecidableEq, Repr

/-- The static member functions `resume` that are installed as completion callbacks. -/
inductive TransferCallback where
  | control_resume
  | bulk_resume
deriving DecidableEq, Repr

/-- The fields of `struct libusb_transfer` that the sources read or that the fill helpers of
`libusb.h` write; `addr` is the address of the descriptor. -/
structure libusb_transfer where
  addr : Nat
  dev_handle : Nat
  endpoint : Nat
  type : Nat
  timeout : Nat
  status : Int
  length : Int
  actual_length : Int
  callback : Option TransferCallback
  user_data : Nat
  buffer : BytePtr
deriving DecidableEq, Repr

/-- The value of `LIBUSB_TRANSFER_TYPE_CONTROL`. -/
def LIBUSB_TRANSFER_TYPE_CONTROL : Nat := 0

/-- The value of `LIBUSB_TRANSFER_TYPE_BULK`. -/
def LIBUSB_TRANSFER_TYPE_BULK : Nat := 2

/-- The value of `LIBUSB_CONTROL_SETUP_SIZE`. -/
def LIBUSB_CONTROL_SETUP_SIZE : Nat := 8

/-- Modelled from the spec: the libusb call `libusb_alloc_transfer(0)`, which is not part of the
repository: a zero-filled descriptor at the address the allocator returns, or the null
pointer. -/
def libusb_alloc_transfer (alloc : Option Nat) : Option libusb_transfer :=
  alloc.map fun a =>
    { addr := a, dev_handle := 0, endpoint := 0, type := 0, timeout := 0, status := 0,
      length := 0, actual_length := 0, callback := none, user_data := 0, buffer := none }

/-- The field `wLength` of the setup packet at the start of a control buffer: the
little-endian 16-bit value in bytes 6 and 7. -/
def setup_wLength (bs : List Nat) : Nat := bs.getD 6 0 % 256 + 256 * (bs.getD 7 0 % 256)

/-- Conversion of a `size_t` to `int` (two's complement, 32 bits). -/
def to_int32 (n : Nat) : Int := ((n : Int) + 2147483648) % 4294967296 - 2147483648

/-- Modelled from the spec: the inline helper `libusb_fill_control_transfer` of `libusb.h`, which
is not part of the repository. It fills in the descriptor with the supplied parameters as
`libusb.h` does: the endpoint is 0, and the length is written from the setup packet at the start
of the buffer, only when the buffer is not null. -/
def libusb_fill_control_transfer (t : libusb_transfer) (dev_handle : Nat) (buffer : BytePtr)
    (callback : TransferCallback) (user_data : Nat) (timeout : Nat) : libusb_transfer :=
  { t with
    dev_handle := dev_handle
    endpoint := 0
    type := LIBUSB_TRANSFER_TYPE_CONTROL
    timeout := timeout
    buffer := buffer
    length := match buffer with
      | some bs => ((LIBUSB_CONTROL_SETUP_SIZE + setup_wLength bs : Nat) : Int)
      | none => t.length
    user_data := user_data
    callback := some callback }

/-- Modelled from the spec: the inline helper `libusb_fill_bulk_transfer` of `libusb.h`, which is
not part of the repository; it fills in the descriptor with the supplied parameters. -/
def libusb_fill_bulk_transfer (t : libusb_transfer) (dev_handle : Nat) (endpoint : Nat)
    (buffer : BytePtr) (length : Int) (callback : TransferCallback) (user_data : Nat)
    (timeout : Nat) : libusb_transfer :=
  { t with
    dev_handle := dev_handle
    endpoint := endpoint
    type := LIBUSB_TRANSFER_TYPE_BULK
    timeout := timeout
    buffer := buffer
    length := length
    user_data := user_data
    callback := some callback }

/-! ## `jinx::AsyncFunction<int>` -/

/-- The member functions a transfer hands to `async_start`. -/
inductive Step where
  | submit
  | completed
deriving DecidableEq, Repr

/-- The outcome of an invocation: the value, or the error. -/
inductive Outcome where
  | success (n : Int)
  | error (e : Error)
deriving DecidableEq, Repr

/-- Modelled from the spec: the phase of a `jinx::AsyncFunction`, whose sources are not part of
the repository. `started Step.submit` is the phase "submitting", `suspended Step.completed` is
"awaiting-completion", `returned` and `raised` are the two "resolved" phases. -/
inductive Phase where
  | idle
  | started (f : Step)
  | suspended (f : Step)
  | returned
  | raised (e : Error)
deriving DecidableEq, Repr

/-- Modelled from the spec: the state of the base class `jinx::AsyncFunction<int>`: the phase
and the result slot that `emplace_result` fills. -/
structure AsyncFunction where
  phase : Phase
  result : Option Int
deriving DecidableEq, Repr

namespace AsyncFunction

/-- Modelled from the spec: `async_start(f)` makes `f` the step to run next. -/
def async_start (f : Step) (a : AsyncFunction) : AsyncFunction := { a with phase := Phase.started f }

/-- Modelled from the spec: `async_suspend()` suspends the caller until `async_resume`. -/
def async_suspend (a : AsyncFunction) : AsyncFunction :=
  match a.phase with
  | Phase.started f => { a with phase := Phase.suspended f }
  | _ => a

/-- Modelled from the spec: `async_throw(e)` resolves the invocation with the error `e`. -/
def async_throw (e : Error) (a : AsyncFunction) : AsyncFunction := { a with phase := Phase.raised e }

/-- Modelled from the spec: `emplace_result(n)` stores the value of the invocation. -/
def emplace_result (n : Int) (a : AsyncFunction) : AsyncFunction := { a with result := some n }

/-- Modelled from the spec: `async_return()` resolves the invocation with the stored value. -/
def async_return (a : AsyncFunction) : AsyncFunction := { a with phase := Phase.returned }

/-- The outcome the awaiting caller observes, once the invocation is resolved. -/
def outcome (a : AsyncFunction) : Option Outcome :=
  match a.phase with
  | Phase.returned => a.result.map Outcome.success
  | Phase.raised e => some (Outcome.error e)
  | _ => none

/-- Whether the caller is suspended. -/
def is_suspended (a : AsyncFunction) : Bool :=
  match a.phase with
  | Phase.suspended _ => true
  | _ => false

end AsyncFunction

/-- What an invocation does that the claims speak about, in order of occurrence. -/
inductive Event where
  | alloc_transfer
  | fill_transfer
  | submit_entered
  | submit_transfer
  | suspend
  | completed_entered
deriving DecidableEq, Repr

/-- From the specification: the outcome of an invocation that reaches the submit step, as a
function of the submit result, the completion status and the actual length alone. -/
def resolution (submit_ret status actual_length : Int) : Outcome :=
  if submit_ret < 0 then Outcome.error (make_error_usb submit_ret)
  else if status = LIBUSB_TRANSFER_COMPLETED then Outcome.success actual_length
  else Outcome.error (make_error_transfer status)

/-- The answers of libusb during one invocation: the result of `libusb_alloc_transfer` should it
be called, the result of `libusb_submit_transfer`, and the status and actual length the
completion reports. -/
structure Answers where
  alloc : Option Nat
  submit_ret : Int
  status : Int
  actual_length : Int
deriving DecidableEq, Repr

/-! ## `USBControlTransfer` -/

/-- The data members of `USBControlTransfer`: the base class state and the pointer `_transfer`
(`none` is `nullptr`). `this` is the address of the instance and `events` records, oldest first,
what the instance has done. -/
structure USBControlTransfer where
  this : Nat
  base : AsyncFunction
  _transfer : Option libusb_transfer
  events : List Event
deriving DecidableEq, Repr

namespace USBControlTransfer

/-- A newly constructed instance at address `this`. -/
def create (this : Nat) : USBControlTransfer :=
  { this := this, base := { phase := Phase.idle, result := none }, _transfer := none,
    events := [] }

/-- The call operator `operator()(handle, buffer, timeout)`; `alloc` is what
`libusb_alloc_transfer(0)` returns should it be called. -/
def call (alloc : Option Nat) (handle : Nat) (buffer : BytePtr) (timeout : Duration)
    (self : USBControlTransfer) : USBControlTransfer :=
  let self : USBControlTransfer :=
    match self._transfer with
    | none =>
      { self with
        _transfer := libusb_alloc_transfer alloc
        events := self.events ++ [Event.alloc_transfer] }
    | some _ => self
  match self._transfer with
  | none => { self with base := self.base.async_throw (make_error_usb LIBUSB_ERROR_NO_MEM) }
  | some t =>
    let timeout_ms := timeout_ms timeout
    { self with
      _transfer := some (libusb_fill_control_transfer t handle buffer TransferCallback.control_resume self.this
        timeout_ms)
      events := self.events ++ [Event.fill_transfer]
      base := self.base.async_start Step.submit }

/-- The member function `submit`; `ret` is the result of `libusb_submit_transfer`. -/
def submit (ret : Int) (self : USBControlTransfer) : USBControlTransfer :=
  let self : USBControlTransfer :=
    { self with events := self.events ++ [Event.submit_entered, Event.submit_transfer] }
  if ret < 0 then
    { self with base := self.base.async_throw (make_error_usb ret) }
  else
    { self with
      base := (self.base.async_start Step.completed).async_suspend
      events := self.events ++ [Event.suspend] }

/-- The member function `completed`. It reads the descriptor that `submit` has handed to libusb,
so it runs only with `_transfer` set. -/
def completed (self : USBControlTransfer) : USBControlTransfer :=
  let self : USBControlTransfer := { self with events := self.events ++ [Event.completed_entered] }
  match self._transfer with
  | none => self
  | some t =>
    if t.status ≠ LIBUSB_TRANSFER_COMPLETED then
      { self with base := self.base.async_throw (make_error_transfer t.status) }
    else
      { self with base := (self.base.emplace_result t.actual_length).async_return }

/-- The static member function `resume`. The call `async_resume` of jinx lets a caller suspended
before `completed` continue there; it has nothing to resume otherwise and its result is
ignored. -/
def resume (self : USBControlTransfer) : USBControlTransfer :=
  match self.base.phase with
  | Phase.suspended Step.completed => completed self
  | _ => self

/-- Modelled from the spec: the scheduler of jinx gives control to the instance, and the step
installed by `async_start` runs. -/
def run (submit_ret : Int) (self : USBControlTransfer) : USBControlTransfer :=
  match self.base.phase with
  | Phase.started Step.submit => submit submit_ret self
  | _ => self

/-- Modelled from the spec: the completion of a submitted transfer inside libusb's event
processing. libusb writes the status and the actual length into the descriptor and calls the
installed callback. -/
def complete (status actual_length : Int) (self : USBControlTransfer) : USBControlTransfer :=
  match self._transfer with
  | none => self
  | some t =>
    let self : USBControlTransfer :=
      { self with _transfer := some { t with status := status, actual_length := actual_length } }
    match t.callback with
    | some TransferCallback.control_resume => resume self
    | _ => self

/-- Modelled from the spec: what follows the call operator. The scheduler runs the started
step, and libusb completes the transfer if the caller is suspended on it. -/
def drive (env : Answers) (self : USBControlTransfer) : USBControlTransfer :=
  let self := run env.submit_ret self
  if self.base.is_suspended then complete env.status env.actual_length self else self

/-- One whole invocation: the call operator, the submit step, and the completion if libusb
accepted the transfer. -/
def invoke (env : Answers) (handle : Nat) (buffer : BytePtr) (timeout : Duration)
    (self : USBControlTransfer) : USBControlTransfer :=
  drive env (call env.alloc handle buffer timeout self)

end USBControlTransfer

/-! ## `USBBulkTransfer` -/

/-- The data members of `USBBulkTransfer`: the base class state and the pointer `_transfer`
(`none` is `nullptr`). `this` is the address of the instance and `events` records, oldest first,
what the instance has done. -/
structure USBBulkTransfer where
  this : Nat
  base : AsyncFunction
  _transfer : Option libusb_transfer
  events : List Event
deriving DecidableEq, Repr

namespace USBBulkTransfer

/-- A newly constructed instance at address `this`. -/
def create (this : Nat) : USBBulkTransfer :=
  { this := this, base := { phase := Phase.idle, result := none }, _transfer := none,
    events := [] }

/-- The call operator `operator()(handle, endpoint, buffer, timeout)`; `alloc` is what
`libusb_alloc_transfer(0)` returns should it be called. -/
def call (alloc : Option Nat) (handle : Nat) (endpoint : Nat) (buffer : SliceRead) (timeout : Duration)
    (self : USBBulkTransfer) : USBBulkTransfer :=
  let self : USBBulkTransfer :=
    match self._transfer with
    | none =>
      { self with
        _transfer := libusb_alloc_transfer alloc
        events := self.events ++ [Event.alloc_transfer] }
    | some _ => self
  match self._transfer with
  | none => { self with base := self.base.async_throw (make_error_usb LIBUSB_ERROR_NO_MEM) }
  | some t =>
    let timeout_ms := timeout_ms timeout
    { self with
      _transfer := some (libusb_fill_bulk_transfer t handle endpoint buffer.data (to_int32 buffer.size)
        TransferCallback.bulk_resume self.this timeout_ms)
      events := self.events ++ [Event.fill_transfer]
      base := self.base.async_start Step.submit }

/-- The member function `submit`; `ret` is the result of `libusb_submit_transfer`. -/
def submit (ret : Int) (self : USBBulkTransfer) : USBBulkTransfer :=
  let self : USBBulkTransfer :=
    { self with events := self.events ++ [Event.submit_entered, Event.submit_transfer] }
  if ret < 0 then
    { self with base := self.base.async_throw (make_error_usb ret) }
  else
    { self with
      base := (self.base.async_start Step.completed).async_suspend
      events := self.events ++ [Event.suspend] }

/-- The member function `completed`. It reads the descriptor that `submit` has handed to libusb,
so it runs only with `_transfer` set. -/
def completed (self : USBBulkTransfer) : USBBulkTransfer :=
  let self : USBBulkTransfer := { self with events := self.events ++ [Event.completed_entered] }
  match self._transfer with
  | none => self
  | some t =>
    if t.status ≠ LIBUSB_TRANSFER_COMPLETED then
      { self with base := self.base.async_throw (make_error_transfer t.status) }
    else
      { self with base := (self.base.emplace_result t.actual_length).async_return }

/-- The static member function `resume`. The call `async_resume` of jinx lets a caller suspended
before `completed` continue there; it has nothing to resume otherwise and its result is
ignored. -/
def resume (self : USBBulkTransfer) : USBBulkTransfer :=
  match self.base.phase with
  | Phase.suspended Step.completed => completed self
  | _ => self

/-- Modelled from the spec: the scheduler of jinx gives control to the instance, and the step
installed by `async_start` runs. -/
def run (submit_ret : Int) (self : USBBulkTransfer) : USBBulkTransfer :=
  match self.base.phase with
  | Phase.started Step.submit => submit submit_ret self
  | _ => self

/-- Modelled from the spec: the completion of a submitted transfer inside libusb's event
processing. libusb writes the status and the actual length into the descriptor and calls the
installed callback. -/
def complete (status actual_length : Int) (self : USBBulkTransfer) : USBBulkTransfer :=
  match self._transfer with
  | none => self
  | some t =>
    let self : USBBulkTransfer :=
      { self with _transfer := some { t with status := status, actual_length := actual_length } }
    match t.callback with
    | some TransferCallback.bulk_resume => resume self
    | _ => self

/-- Modelled from the spec: what follows the call operator. The scheduler runs the started
step, and libusb completes the transfer if the caller is suspended on it. -/
def drive (env : Answers) (self : USBBulkTransfer) : USBBulkTransfer :=
  let self := run env.submit_ret self
  if self.base.is_suspended then complete env.status env.actual_length self else self

/-- One whole invocation: the call operator, the submit step, and the completion if libusb
accepted the transfer. -/
def invoke (env : Answers) (handle : Nat) (endpoint : Nat) (buffer : SliceRead) (timeout : Duration)
    (self : USBBulkTransfer) : USBBulkTransfer :=
  drive env (call env.alloc handle endpoint buffer timeout self)

end USBBulkTransfer

/-- From the specification: a descriptor is currently added when some notification of the
sequence added it and no later notification removed it. -/
def currently_added (ns : List Notification) (fd : Int) : Prop :=
  ∃ pre post events ok, ns = pre ++ Notification.fd_added fd events ok :: post ∧
    Notification.fd_removed fd ∉ post

/-! # Theorems -/

/-! ## The watched-descriptor map -/

theorem fds_find_isSome_iff (m : List (Int × Nat)) (fd : Int) :
    (fds_find m fd).isSome ↔ fd ∈ fds_keys m := by
  induction m with
  | nil => simp [fds_find, fds_keys]
  | cons p m ih =>
    obtain ⟨k, v⟩ := p
    unfold fds_find
    by_cases h : k = fd
    · simp [h, fds_keys]
    · have h2 : ¬ fd = k := fun e => h e.symm
      simp only [h, if_false, ih]
      simp [fds_keys, h2]

theorem fds_find_eq_none_iff (m : List (Int × Nat)) (fd : Int) :
    fds_find m fd = none ↔ fd ∉ fds_keys m := by
  rw [← fds_find_isSome_iff]
  cases fds_find m fd <;> simp

theorem fds_keys_emplace (m : List (Int × Nat)) (fd : Int) (handle : Nat)
    (h : fds_find m fd = none) : fds_keys (fds_emplace m fd handle) = fd :: fds_keys m := by
  simp [fds_emplace, h, fds_keys]

theorem fds_keys_erase (m : List (Int × Nat)) (fd : Int) :
    fds_keys (fds_erase m fd) = (fds_keys m).erase fd := by
  induction m with
  | nil => simp [fds_erase, fds_keys]
  | cons p m ih =>
    obtain ⟨k, v⟩ := p
    unfold fds_erase
    by_cases h : k = fd
    · simp [h, fds_keys]
    · simp only [h, if_false]
      have : fds_keys ((k, v) :: fds_erase m fd) = k :: fds_keys (fds_erase m fd) := rfl
      rw [this, ih]
      have h3 : fds_keys ((k, v) :: m) = k :: fds_keys m := rfl
      rw [h3, List.erase_cons_tail]
      simpa using h

theorem fd_added_cb_keys (F : IOFlags) (ok : Bool) (usb_fd events : Int) (self : AsyncUSBAgent) :
    fds_keys (fd_added_cb F ok usb_fd events self)._fds =
      if usb_fd ∈ fds_keys self._fds then fds_keys self._fds
      else usb_fd :: fds_keys self._fds := by
  unfold fd_added_cb
  cases h : fds_find self._fds usb_fd with
  | some v =>
    have : usb_fd ∈ fds_keys self._fds := (fds_find_isSome_iff _ _).mp (by simp [h])
    simp [this]
  | none =>
    have : usb_fd ∉ fds_keys self._fds := (fds_find_eq_none_iff _ _).mp h
    simp [this, fds_keys_emplace _ _ _ h]

theorem fd_removed_cb_keys (usb_fd : Int) (self : AsyncUSBAgent) :
    fds_keys (fd_removed_cb usb_fd self)._fds = (fds_keys self._fds).erase usb_fd := by
  unfold fd_removed_cb
  cases h : fds_find self._fds usb_fd with
  | some v => simp [fds_keys_erase]
  | none =>
    have : usb_fd ∉ fds_keys self._fds := (fds_find_eq_none_iff _ _).mp h
    simp [List.erase_of_not_mem this]

theorem notify_keys (F : IOFlags) (self : AsyncUSBAgent) (n : Notification) (fd : Int)
    (hn : (fds_keys self._fds).Nodup) :
    (fds_keys (notify F self n)._fds).Nodup ∧
    (fd ∈ fds_keys (notify F self n)._fds ↔
      ((∃ events ok, n = Notification.fd_added fd events ok) ∨
        (fd ∈ fds_keys self._fds ∧ n ≠ Notification.fd_removed fd))) := by
  cases n with
  | fd_added usb_fd events ok =>
    simp only [notify, fd_added_cb_keys]
    by_cases h : usb_fd ∈ fds_keys self._fds
    · simp only [h, if_true]
      refine ⟨hn, ?_⟩
      constructor
      · intro hfd; exact Or.inr ⟨hfd, by simp⟩
      · rintro (⟨e, o, he⟩ | ⟨hfd, -⟩)
        · cases he; exact h
        · exact hfd
    · simp only [h, if_false]
      refine ⟨List.nodup_cons.mpr ⟨h, hn⟩, ?_⟩
      rw [List.mem_cons]
      constructor
      · rintro (rfl | hfd)
        · exact Or.inl ⟨events, ok, rfl⟩
        · exact Or.inr ⟨hfd, by simp⟩
      · rintro (⟨e, o, he⟩ | ⟨hfd, -⟩)
        · cases he; exact Or.inl rfl
        · exact Or.inr hfd
  | fd_removed usb_fd =>
    simp only [notify, fd_removed_cb_keys]
    refine ⟨hn.erase _, ?_⟩
    rw [hn.mem_erase_iff]
    constructor
    · rintro ⟨hne, hfd⟩
      refine Or.inr ⟨hfd, ?_⟩
      intro he
      cases he
      exact hne rfl
    · rintro (⟨e, o, he⟩ | ⟨hfd, hne⟩)
      · cases he
      · refine ⟨?_, hfd⟩
        rintro rfl
        exact hne rfl

theorem currently_added_nil (fd : Int) : ¬ currently_added [] fd := by
  rintro ⟨pre, post, events, ok, h, -⟩
  simp at h

theorem currently_added_concat (ns : List Notification) (n : Notification) (fd : Int) :
    currently_added (ns ++ [n]) fd ↔
      ((∃ events ok, n = Notification.fd_added fd events ok) ∨
        (currently_added ns fd ∧ n ≠ Notification.fd_removed fd)) := by
  constructor
  · rintro ⟨pre, post, events, ok, h, hpost⟩
    rcases List.eq_nil_or_concat post with rfl | ⟨post2, x, rfl⟩
    · left
      have h2 : ns ++ [n] = pre ++ [Notification.fd_added fd events ok] := h
      obtain ⟨-, h3⟩ := List.append_inj' h2 rfl
      exact ⟨events, ok, by simpa using h3⟩
    · right
      have h2 : ns ++ [n] = (pre ++ Notification.fd_added fd events ok :: post2) ++ [x] := by
        rw [h]; simp
      obtain ⟨h3, h4⟩ := List.append_inj' h2 rfl
      have h5 : n = x := by simpa using h4
      simp only [List.concat_eq_append, List.mem_append, List.mem_singleton, not_or] at hpost
      refine ⟨⟨pre, post2, events, ok, h3, hpost.1⟩, ?_⟩
      rw [h5]
      exact fun e => hpost.2 e.symm
  · rintro (⟨events, ok, rfl⟩ | ⟨⟨pre, post, events, ok, h, hpost⟩, hne⟩)
    · exact ⟨ns, [], events, ok, rfl, by simp⟩
    · refine ⟨pre, post ++ [n], events, ok, by rw [h]; simp, ?_⟩
      simp only [List.mem_append, List.mem_singleton, not_or]
      exact ⟨hpost, fun e => hne e.symm⟩

theorem notify_all_keys (F : IOFlags) (a : AsyncUSBAgent) (h : a._fds = [])
    (ns : List Notification) :
    (fds_keys (notify_all F a ns)._fds).Nodup ∧
    ∀ fd, fd ∈ fds_keys (notify_all F a ns)._fds ↔ currently_added ns fd := by
  induction ns using List.reverseRecOn with
  | nil =>
    refine ⟨by simp [notify_all, h, fds_keys], fun fd => ?_⟩
    simp [notify_all, h, fds_keys, currently_added_nil]
  | append_singleton l n ih =>
    have hstep : notify_all F a (l ++ [n]) = notify F (notify_all F a l) n := by
      simp [notify_all, List.foldl_append]
    rw [hstep]
    refine ⟨(notify_keys F _ n 0 ih.1).1, fun fd => ?_⟩
    rw [(notify_keys F _ n fd ih.1).2, currently_added_concat, ih.2 fd]

/-! ## The watch flags -/

theorem and_two_pow_ne_zero_iff (x n : Nat) : x &&& 2 ^ n ≠ 0 ↔ x.testBit n = true := by
  constructor
  · intro h
    obtain ⟨i, hi⟩ := Nat.ne_zero_implies_bit_true h
    rw [Nat.testBit_and, Nat.testBit_two_pow] at hi
    simp only [Bool.and_eq_true, decide_eq_true_eq] at hi
    rw [hi.2]; exact hi.1
  · intro h h0
    have := congrArg (fun y => y.testBit n) h0
    simp [Nat.testBit_two_pow_self, h] at this

theorem or_and_right_self (a r : Nat) : (a ||| r) &&& r = r := by
  apply Nat.eq_of_testBit_eq
  intro i
  rw [Nat.testBit_and, Nat.testBit_or]
  cases a.testBit i <;> cases r.testBit i <;> rfl

theorem or_and_left_self (a r : Nat) : (a ||| r) &&& a = a := by
  rw [Nat.or_comm]; exact or_and_right_self r a

theorem or_and_of_disjoint (a b r : Nat) (ha : a &&& r = 0) (hb : b &&& r = 0) :
    (a ||| b) &&& r = 0 := by
  apply Nat.eq_of_testBit_eq
  intro i
  have h1 := congrArg (fun y => y.testBit i) ha
  have h2 := congrArg (fun y => y.testBit i) hb
  simp only [Nat.testBit_and, Nat.zero_testBit] at h1 h2
  rw [Nat.testBit_and, Nat.testBit_or, Nat.zero_testBit]
  cases hA : a.testBit i <;> cases hB : b.testBit i <;> cases hR : r.testBit i <;> simp_all

theorem flag_word_bits (P R W : Nat) (pin pout : Prop) [Decidable pin] [Decidable pout]
    (hR : R ≠ 0) (hW : W ≠ 0) (hPR : P &&& R = 0) (hPW : P &&& W = 0) (hRW : R &&& W = 0) :
    (if pout then (if pin then P ||| R else P) ||| W else (if pin then P ||| R else P)) &&& P = P ∧
    ((if pout then (if pin then P ||| R else P) ||| W else (if pin then P ||| R else P)) &&& R = R
      ↔ pin) ∧
    ((if pout then (if pin then P ||| R else P) ||| W else (if pin then P ||| R else P)) &&& R = 0
      ↔ ¬ pin) ∧
    ((if pout then (if pin then P ||| R else P) ||| W else (if pin then P ||| R else P)) &&& W = W
      ↔ pout) ∧
    ((if pout then (if pin then P ||| R else P) ||| W else (if pin then P ||| R else P)) &&& W = 0
      ↔ ¬ pout) := by
  have hWR : W &&& R = 0 := by rw [Nat.and_comm]; exact hRW
  have hR0 : ¬ (0 = R) := fun e => hR e.symm
  have hW0 : ¬ (0 = W) := fun e => hW e.symm
  have a1 : (P ||| R ||| W) &&& P = P := by rw [Nat.or_assoc]; exact or_and_left_self _ _
  have a2 : (P ||| R ||| W) &&& R = R := by
    rw [Nat.or_comm (P ||| R) W, ← Nat.or_assoc]; exact or_and_right_self _ _
  have a3 : (P ||| R ||| W) &&& W = W := or_and_right_self _ _
  have b1 : (P ||| W) &&& P = P := or_and_left_self _ _
  have b2 : (P ||| W) &&& R = 0 := or_and_of_disjoint _ _ _ hPR hWR
  have b3 : (P ||| W) &&& W = W := or_and_right_self _ _
  have c1 : (P ||| R) &&& P = P := or_and_left_self _ _
  have c2 : (P ||| R) &&& R = R := or_and_right_self _ _
  have c3 : (P ||| R) &&& W = 0 := or_and_of_disjoint _ _ _ hPW hRW
  have d1 : P &&& P = P := Nat.and_self P
  by_cases hin : pin <;> by_cases hout : pout
  · simp only [if_pos hin, if_pos hout, a1, a2, a3]
    exact ⟨trivial, iff_of_true trivial hin, iff_of_false hR (not_not.mpr hin), iff_of_true trivial hout,
      iff_of_false hW (not_not.mpr hout)⟩
  · simp only [if_pos hin, if_neg hout, c1, c2, c3]
    exact ⟨trivial, iff_of_true trivial hin, iff_of_false hR (not_not.mpr hin), iff_of_false hW0 hout,
      iff_of_true trivial hout⟩
  · simp only [if_neg hin, if_pos hout, b1, b2, b3]
    exact ⟨trivial, iff_of_false hR0 hin, iff_of_true trivial hin, iff_of_true trivial hout,
      iff_of_false hW (not_not.mpr hout)⟩
  · simp only [if_neg hin, if_neg hout, d1, hPR, hPW]
    exact ⟨trivial, iff_of_false hR0 hin, iff_of_true trivial hin, iff_of_false hW0 hout,
      iff_of_true trivial hout⟩

theorem shortBits_testBit (events : Int) (i : Nat) (hi : i < 16) :
    (shortBits events).testBit i = Int.testBit events i := by
  unfold shortBits
  cases events with
  | ofNat m =>
    have h1 : ((Int.ofNat m) % 65536).toNat = m % 2 ^ 16 := by
      have : (Int.ofNat m) % 65536 = ((m % 65536 : Nat) : Int) := by
        simp [Int.ofNat_emod]
      rw [this, Int.toNat_ofNat]
      norm_num
    rw [h1, Nat.testBit_mod_two_pow]
    simp [hi, Int.testBit]
  | negSucc m =>
    have h1 : ((Int.negSucc m) % 65536).toNat = 2 ^ 16 - (m % 2 ^ 16 + 1) := by
      rw [Int.negSucc_emod m (by decide)]
      omega
    rw [h1, Nat.testBit_two_pow_sub_succ (Nat.mod_lt _ (by decide)), Nat.testBit_mod_two_pow]
    simp [hi, Int.testBit]

theorem pollin_test_iff (events : Int) :
    shortBits events &&& POLLIN ≠ 0 ↔ Int.testBit events 0 = true := by
  rw [← shortBits_testBit events 0 (by decide)]
  exact and_two_pow_ne_zero_iff _ 0

theorem pollout_test_iff (events : Int) :
    shortBits events &&& POLLOUT ≠ 0 ↔ Int.testBit events 2 = true := by
  rw [← shortBits_testBit events 2 (by decide)]
  exact and_two_pow_ne_zero_iff _ 2

theorem watch_flags_eq (F : IOFlags) (events : Int) :
    watch_flags F events =
      (F.IOFlagPersist ||| (if Int.testBit events 0 = true then F.IOFlagRead else 0))
        ||| (if Int.testBit events 2 = true then F.IOFlagWrite else 0) := by
  unfold watch_flags
  have hin := pollin_test_iff events
  have hout := pollout_test_iff events
  by_cases h1 : Int.testBit events 0 = true <;> by_cases h2 : Int.testBit events 2 = true <;>
    simp [h1, h2, hin.mpr, hout.mpr, mt hin.mp, mt hout.mp]

theorem watch_flags_bits (F : IOFlags) (events : Int)
    (hR : F.IOFlagRead ≠ 0) (hW : F.IOFlagWrite ≠ 0)
    (hPR : F.IOFlagPersist &&& F.IOFlagRead = 0) (hPW : F.IOFlagPersist &&& F.IOFlagWrite = 0)
    (hRW : F.IOFlagRead &&& F.IOFlagWrite = 0) :
    watch_flags F events &&& F.IOFlagPersist = F.IOFlagPersist ∧
    (watch_flags F events &&& F.IOFlagRead = F.IOFlagRead ↔ Int.testBit events 0 = true) ∧
    (watch_flags F events &&& F.IOFlagRead = 0 ↔ ¬ Int.testBit events 0 = true) ∧
    (watch_flags F events &&& F.IOFlagWrite = F.IOFlagWrite ↔ Int.testBit events 2 = true) ∧
    (watch_flags F events &&& F.IOFlagWrite = 0 ↔ ¬ Int.testBit events 2 = true) := by
  have hin := pollin_test_iff events
  have hout := pollout_test_iff events
  obtain ⟨k1, k2, k3, k4, k5⟩ := flag_word_bits F.IOFlagPersist F.IOFlagRead F.IOFlagWrite
    (shortBits events &&& POLLIN ≠ 0) (shortBits events &&& POLLOUT ≠ 0) hR hW hPR hPW hRW
  exact ⟨k1, k2.trans hin, k3.trans (not_congr hin), k4.trans hout, k5.trans (not_congr hout)⟩

/-- C9: for an untracked descriptor and any event mask, `fd_added_cb` makes exactly one reactor
call, `add_io` for that descriptor with the callback `handle_io_event` and the handle stored in
`_fds`. Its flag word is the persistent flag, joined with the read flag exactly when the mask
contains `POLLIN` (bit 0 of the two's complement mask) and with the write flag exactly when it
contains `POLLOUT` (bit 2), and nothing else. For flags that are distinct bits this means:
persistent always set, read set exactly when the mask contains `POLLIN`, write set exactly when
it contains `POLLOUT`. -/
theorem fd_added_cb_registers (F : IOFlags) (ok : Bool) (usb_fd events : Int)
    (self : AsyncUSBAgent) (h : usb_fd ∉ fds_keys self._fds)
    (hR : F.IOFlagRead ≠ 0) (hW : F.IOFlagWrite ≠ 0)
    (hPR : F.IOFlagPersist &&& F.IOFlagRead = 0) (hPW : F.IOFlagPersist &&& F.IOFlagWrite = 0)
    (hRW : F.IOFlagRead &&& F.IOFlagWrite = 0) :
    (fd_added_cb F ok usb_fd events self)._eve.calls =
      self._eve.calls ++
        [ReactorCall.add_io
          ((F.IOFlagPersist ||| (if Int.testBit events 0 = true then F.IOFlagRead else 0))
            ||| (if Int.testBit events 2 = true then F.IOFlagWrite else 0))
          self.heap_next usb_fd Callback.handle_io_event] ∧
    fds_find (fd_added_cb F ok usb_fd events self)._fds usb_fd = some self.heap_next ∧
    watch_flags F events =
      (F.IOFlagPersist ||| (if Int.testBit events 0 = true then F.IOFlagRead else 0))
        ||| (if Int.testBit events 2 = true then F.IOFlagWrite else 0) ∧
    watch_flags F events &&& F.IOFlagPersist = F.IOFlagPersist ∧
    (watch_flags F events &&& F.IOFlagRead = F.IOFlagRead ↔ Int.testBit events 0 = true) ∧
    (watch_flags F events &&& F.IOFlagRead = 0 ↔ ¬ Int.testBit events 0 = true) ∧
    (watch_flags F events &&& F.IOFlagWrite = F.IOFlagWrite ↔ Int.testBit events 2 = true) ∧
    (watch_flags F events &&& F.IOFlagWrite = 0 ↔ ¬ Int.testBit events 2 = true) := by
  have hfind : fds_find self._fds usb_fd = none := (fds_find_eq_none_iff _ _).mpr h
  refine ⟨?_, ?_, watch_flags_eq F events, watch_flags_bits F events hR hW hPR hPW hRW⟩
  · rw [← watch_flags_eq F events]
    unfold fd_added_cb
    simp [hfind, EventEngine.add_io]
  · unfold fd_added_cb
    simp [hfind, fds_emplace, fds_find]

/-- Witness of C9: the flags 16, 2, 4; the mask `POLLIN | POLLOUT` (5) and the negative mask -1
give all three flags (22), the negative mask -2 lacks `POLLIN` and gives 20. -/
theorem fd_added_cb_registers_witness :
    (fd_added_cb ⟨16, 2, 4⟩ true 7 5 ⟨⟨[], [], []⟩, [], true, 9, 100⟩)._eve.calls =
      [ReactorCall.add_io 22 100 7 Callback.handle_io_event] ∧
    (fd_added_cb ⟨16, 2, 4⟩ true 7 (-1) ⟨⟨[], [], []⟩, [], true, 9, 100⟩)._eve.calls =
      [ReactorCall.add_io 22 100 7 Callback.handle_io_event] ∧
    (fd_added_cb ⟨16, 2, 4⟩ false 8 (-2) ⟨⟨[], [], []⟩, [], true, 9, 100⟩)._eve.calls =
      [ReactorCall.add_io 20 100 8 Callback.handle_io_event] :=
  ⟨(fd_added_cb_registers ⟨16, 2, 4⟩ true 7 5 ⟨⟨[], [], []⟩, [], true, 9, 100⟩
      (by decide) (by decide) (by decide) (by decide) (by decide) (by decide)).1,
    (fd_added_cb_registers ⟨16, 2, 4⟩ true 7 (-1) ⟨⟨[], [], []⟩, [], true, 9, 100⟩
      (by decide) (by decide) (by decide) (by decide) (by decide) (by decide)).1,
    (fd_added_cb_registers ⟨16, 2, 4⟩ false 8 (-2) ⟨⟨[], [], []⟩, [], true, 9, 100⟩
      (by decide) (by decide) (by decide) (by decide) (by decide) (by decide)).1⟩

/-- C1: starting from an empty `_fds`, after every prefix of every sequence of notifications
(whatever the outcome of each reactor registration) the keys of `_fds` are without repetition
and are exactly the descriptors added and not removed since; an added notification for a
tracked descriptor and a removed notification for an untracked one change nothing. -/
theorem fds_keys_track_notifications (F : IOFlags) (a : AsyncUSBAgent)
    (ns : List Notification) (h : a._fds = []) :
    (∀ k : Nat, (fds_keys (notify_all F a (ns.take k))._fds).Nodup ∧
      ∀ fd, fd ∈ fds_keys (notify_all F a (ns.take k))._fds ↔
        currently_added (ns.take k) fd) ∧
    (∀ (self : AsyncUSBAgent) (ok : Bool) (fd events : Int),
      fd ∈ fds_keys self._fds → fd_added_cb F ok fd events self = self) ∧
    (∀ (self : AsyncUSBAgent) (fd : Int),
      fd ∉ fds_keys self._fds → fd_removed_cb fd self = self) := by
  refine ⟨fun k => notify_all_keys F a h (ns.take k), ?_, ?_⟩
  · intro self ok fd events hfd
    have := (fds_find_isSome_iff self._fds fd).mpr hfd
    unfold fd_added_cb
    cases hf : fds_find self._fds fd with
    | none => simp [hf] at this
    | some v => rfl
  · intro self fd hfd
    have := (fds_find_eq_none_iff self._fds fd).mpr hfd
    unfold fd_removed_cb
    simp [this]

/-- Witness of C1: descriptor 3 added twice (the second registration would fail) and removed,
descriptor 4 removed though never added, descriptor 5 added with a failing registration. -/
theorem fds_keys_track_notifications_witness :
    fds_keys (notify_all ⟨16, 2, 4⟩ ⟨⟨[], [], []⟩, [], true, 9, 100⟩
      [Notification.fd_added 3 1 true, Notification.fd_added 3 1 false,
        Notification.fd_removed 3, Notification.fd_removed 4,
        Notification.fd_added 5 4 false])._fds = [5] ∧
    (5 ∈ fds_keys (notify_all ⟨16, 2, 4⟩ ⟨⟨[], [], []⟩, [], true, 9, 100⟩
      (List.take 5 [Notification.fd_added 3 1 true, Notification.fd_added 3 1 false,
        Notification.fd_removed 3, Notification.fd_removed 4,
        Notification.fd_added 5 4 false]))._fds ↔
      currently_added (List.take 5 [Notification.fd_added 3 1 true,
        Notification.fd_added 3 1 false, Notification.fd_removed 3,
        Notification.fd_removed 4, Notification.fd_added 5 4 false]) 5) :=
  ⟨by decide,
    ((fds_keys_track_notifications ⟨16, 2, 4⟩ ⟨⟨[], [], []⟩, [], true, 9, 100⟩
      [Notification.fd_added 3 1 true, Notification.fd_added 3 1 false,
        Notification.fd_removed 3, Notification.fd_removed 4,
        Notification.fd_added 5 4 false] rfl).1 5).2 5⟩

theorem notify_all_append (F : IOFlags) (a : AsyncUSBAgent) (xs ys : List Notification) :
    notify_all F (notify_all F a xs) ys = notify_all F a (xs ++ ys) := by
  simp [notify_all, List.foldl_append]

/-- C5 (counterexample): an agent constructed while libusb lists descriptor 3, whose teardown
delivers no notification, fails the assertion of the destructor. -/
theorem destroy_counterexample :
    (AsyncUSBAgent.create ⟨16, 2, 4⟩ ⟨[], [], []⟩ 9 100 0 0 [(3, 1, true)]).isSome = true ∧
    (AsyncUSBAgent.create ⟨16, 2, 4⟩ ⟨[], [], []⟩ 9 100 0 0 [(3, 1, true)]).bind
      (AsyncUSBAgent.destroy ⟨16, 2, 4⟩ []) = none := by
  decide

/-- C5 (amended): for an agent that started with an empty `_fds`, the assertion of the destructor
holds exactly when no descriptor added during the lifetime or the teardown is left without a
later removal. -/
theorem destroy_succeeds_iff (F : IOFlags) (a : AsyncUSBAgent)
    (lifetime teardown : List Notification) (h : a._fds = []) :
    (AsyncUSBAgent.destroy F teardown (notify_all F a lifetime)).isSome = true ↔
      ∀ fd, ¬ currently_added (lifetime ++ teardown) fd := by
  obtain ⟨-, hk⟩ := notify_all_keys F a h (lifetime ++ teardown)
  unfold AsyncUSBAgent.destroy
  simp only [notify_all_append]
  constructor
  · intro hs fd hfd
    have hmem := (hk fd).mpr hfd
    cases hl : (notify_all F a (lifetime ++ teardown))._fds with
    | nil => rw [hl] at hmem; simp [fds_keys] at hmem
    | cons p m => rw [hl] at hs; simp at hs
  · intro hall
    cases hl : (notify_all F a (lifetime ++ teardown))._fds with
    | nil => simp
    | cons p m =>
      exfalso
      exact hall p.1 ((hk p.1).mp (by rw [hl]; simp [fds_keys]))

/-- Witness of C5: descriptor 3 is added during the lifetime and removed by the teardown. -/
theorem destroy_succeeds_iff_witness :
    (AsyncUSBAgent.destroy ⟨16, 2, 4⟩ [Notification.fd_removed 3]
      (notify_all ⟨16, 2, 4⟩ ⟨⟨[], [], []⟩, [], true, 9, 100⟩
        [Notification.fd_added 3 1 true])).isSome = true ∧
    ∀ fd, ¬ currently_added
      ([Notification.fd_added 3 1 true] ++ [Notification.fd_removed 3]) fd :=
  ⟨by decide,
    (destroy_succeeds_iff ⟨16, 2, 4⟩ ⟨⟨[], [], []⟩, [], true, 9, 100⟩
      [Notification.fd_added 3 1 true] [Notification.fd_removed 3] rfl).mp (by decide)⟩

/-! ## The timer -/

theorem notify_frame (F : IOFlags) (self : AsyncUSBAgent) (n : Notification) :
    (notify F self n)._should_handle_timeouts = self._should_handle_timeouts ∧
    (notify F self n)._timeout_handle = self._timeout_handle ∧
    (notify F self n)._eve.timers = self._eve.timers ∧
    (notify F self n)._eve.timer_calls = self._eve.timer_calls := by
  cases n with
  | fd_added usb_fd events ok =>
    simp only [notify, fd_added_cb]
    cases fds_find self._fds usb_fd <;>
      simp [EventEngine.add_io, EventEngine.timer_calls, ReactorCall.is_timer_call]
  | fd_removed usb_fd =>
    simp only [notify, fd_removed_cb]
    cases fds_find self._fds usb_fd <;>
      simp [EventEngine.remove_io, EventEngine.timer_calls, ReactorCall.is_timer_call]

theorem notify_all_frame (F : IOFlags) (ns : List Notification) (self : AsyncUSBAgent) :
    (notify_all F self ns)._should_handle_timeouts = self._should_handle_timeouts ∧
    (notify_all F self ns)._timeout_handle = self._timeout_handle ∧
    (notify_all F self ns)._eve.timers = self._eve.timers ∧
    (notify_all F self ns)._eve.timer_calls = self._eve.timer_calls := by
  induction ns generalizing self with
  | nil => exact ⟨rfl, rfl, rfl, rfl⟩
  | cons n ns ih =>
    have h1 := notify_frame F self n
    have h2 := ih (notify F self n)
    have e : notify_all F self (n :: ns) = notify_all F (notify F self n) ns := rfl
    rw [e]
    exact ⟨h2.1.trans h1.1, h2.2.1.trans h1.2.1, h2.2.2.1.trans h1.2.2.1,
      h2.2.2.2.trans h1.2.2.2⟩

theorem timers_without_handle (l : List (Nat × timeval)) (h : Nat) :
    ((l.filter (fun t => t.1 ≠ h)).filter (fun t => t.1 = h)) = [] ∧
    (l.filter (fun t => t.1 ≠ h)).any (fun t => t.1 = h) = false := by
  induction l with
  | nil => simp
  | cons x l ih =>
    by_cases hx : x.1 = h
    · simp [List.filter_cons, hx, ih]
    · simp only [List.filter_cons, hx, ne_eq, not_false_eq_true, decide_True, if_true,
        List.any_cons, decide_False, Bool.false_or, if_false]
      exact ih

theorem update_timeout_calls (p : EventsPass) (self : AsyncUSBAgent)
    (hs : self._should_handle_timeouts = true) :
    (update_timeout p self)._eve.timer_calls = self._eve.timer_calls ++
      [if 0 < p.next_ret then
          ReactorCall.add_timer self._timeout_handle p.next_tv Callback.handle_timer_event
        else ReactorCall.remove_timer self._timeout_handle] := by
  unfold update_timeout
  by_cases hret : 0 < p.next_ret
  · have hgt : p.next_ret > 0 := hret
    simp [hs, hgt, hret, EventEngine.add_timer, EventEngine.timer_calls,
      ReactorCall.is_timer_call]
  · have hgt : ¬ p.next_ret > 0 := hret
    simp [hs, hgt, hret, EventEngine.remove_timer, EventEngine.timer_calls,
      ReactorCall.is_timer_call]

theorem update_timeout_armed (p : EventsPass) (self : AsyncUSBAgent)
    (hs : self._should_handle_timeouts = true)
    (hok : 0 < p.next_ret → p.add_timer_ok = true) :
    (update_timeout p self)._eve.armed_count self._timeout_handle ≤ 1 ∧
    ((update_timeout p self)._eve.armed self._timeout_handle = true ↔ 0 < p.next_ret) := by
  obtain ⟨h1, h2⟩ := timers_without_handle self._eve.timers self._timeout_handle
  unfold update_timeout
  by_cases hret : 0 < p.next_ret
  · have hgt : p.next_ret > 0 := hret
    simp only [hs, Bool.not_true, Bool.false_eq_true, if_false, hgt, if_true,
      EventEngine.add_timer, hok hret, EventEngine.armed_count, EventEngine.armed]
    constructor
    · rw [List.filter_cons]
      simp [h1]
    · simp
  · have hgt : ¬ p.next_ret > 0 := hret
    simp only [hs, Bool.not_true, Bool.false_eq_true, if_false, hgt,
      EventEngine.remove_timer, EventEngine.armed_count, EventEngine.armed, h1, h2]
    simp

theorem update_timeout_armed_count (p : EventsPass) (self : AsyncUSBAgent)
    (hprior : self._eve.armed_count self._timeout_handle ≤ 1) :
    (update_timeout p self)._eve.armed_count self._timeout_handle ≤ 1 := by
  by_cases hs : self._should_handle_timeouts = true
  · by_cases hok : 0 < p.next_ret → p.add_timer_ok = true
    · exact (update_timeout_armed p self hs hok).1
    · have hret : 0 < p.next_ret := by
        by_contra hc
        exact hok (fun h => absurd h hc)
      have hno : p.add_timer_ok = false := by
        cases h : p.add_timer_ok with
        | false => rfl
        | true => exact absurd (fun _ => h) hok
      have hgt : p.next_ret > 0 := hret
      unfold update_timeout
      simpa [hs, hgt, EventEngine.add_timer, hno, EventEngine.armed_count] using hprior
  · unfold update_timeout
    simpa [hs] using hprior

theorem update_timeout_idle (p : EventsPass) (self : AsyncUSBAgent)
    (hs : self._should_handle_timeouts = false) : update_timeout p self = self := by
  unfold update_timeout
  simp [hs]

/-- C2 (counterexample): an agent constructed while libusb handles timeouts itself
(`libusb_pollfds_handle_timeouts` returns 1) arms no timer in a pass after which a timeout is
pending; the same agent leaves a timer armed in a pass after which no timeout is pending; and
an agent that handles timeouts has no timer armed after a pass with a pending timeout when the
reactor refuses `add_timer`, whose result the code discards. -/
theorem timer_counterexample :
    AsyncUSBAgent.create ⟨16, 2, 4⟩ ⟨[], [], []⟩ 9 100 0 1 []
      = some ⟨⟨[], [], []⟩, [], false, 9, 100⟩ ∧
    ((handle_io_event ⟨16, 2, 4⟩ ⟨[], 1, ⟨0, 500⟩, true⟩
        ⟨⟨[], [], []⟩, [], false, 9, 100⟩)._eve.armed 9 = false ∧
      0 < (⟨[], 1, ⟨0, 500⟩, true⟩ : EventsPass).next_ret) ∧
    ((handle_timer_event ⟨16, 2, 4⟩ ⟨[], 0, ⟨0, 0⟩, true⟩
        ⟨⟨[], [], [(9, ⟨1, 0⟩)]⟩, [], false, 9, 100⟩)._eve.armed 9 = true ∧
      ¬ 0 < (⟨[], 0, ⟨0, 0⟩, true⟩ : EventsPass).next_ret) ∧
    ((handle_io_event ⟨16, 2, 4⟩ ⟨[], 1, ⟨0, 500⟩, false⟩
        ⟨⟨[], [], []⟩, [], true, 9, 100⟩)._eve.armed 9 = false ∧
      0 < (⟨[], 1, ⟨0, 500⟩, false⟩ : EventsPass).next_ret) := by
  decide

/-- C2 (amended): when the agent recorded at construction that it must handle timeouts, each of
`handle_io_event` and `handle_timer_event` makes exactly one timer call, on the timer handle of
the agent: `add_timer` with the reported timeout and `handle_timer_event` when
`libusb_get_next_timeout` reports a pending timeout, `remove_timer` otherwise. If the reactor
accepts that `add_timer`, then for every prior state of the reactor the handle is armed at most
once, and it is armed exactly when a timeout is pending. Whether or not the reactor accepts it,
a handle armed at most once before the pass is armed at most once after it. When the agent
recorded that libusb handles timeouts itself, the pass makes no timer call and leaves the timers
of the reactor as they were. -/
theorem timer_armed_iff_pending (F : IOFlags) (p : EventsPass) (self : AsyncUSBAgent) :
    (self._should_handle_timeouts = true →
      (handle_io_event F p self)._eve.timer_calls = self._eve.timer_calls ++
        [if 0 < p.next_ret then
            ReactorCall.add_timer self._timeout_handle p.next_tv Callback.handle_timer_event
          else ReactorCall.remove_timer self._timeout_handle] ∧
      (handle_timer_event F p self)._eve.timer_calls = self._eve.timer_calls ++
        [if 0 < p.next_ret then
            ReactorCall.add_timer self._timeout_handle p.next_tv Callback.handle_timer_event
          else ReactorCall.remove_timer self._timeout_handle] ∧
      ((0 < p.next_ret → p.add_timer_ok = true) →
        (handle_io_event F p self)._eve.armed_count self._timeout_handle ≤ 1 ∧
        ((handle_io_event F p self)._eve.armed self._timeout_handle = true ↔ 0 < p.next_ret) ∧
        (handle_timer_event F p self)._eve.armed_count self._timeout_handle ≤ 1 ∧
        ((handle_timer_event F p self)._eve.armed self._timeout_handle = true ↔
          0 < p.next_ret))) ∧
    (self._eve.armed_count self._timeout_handle ≤ 1 →
      (handle_io_event F p self)._eve.armed_count self._timeout_handle ≤ 1 ∧
      (handle_timer_event F p self)._eve.armed_count self._timeout_handle ≤ 1) ∧
    (self._should_handle_timeouts = false →
      (handle_io_event F p self)._eve.timer_calls = self._eve.timer_calls ∧
      (handle_timer_event F p self)._eve.timer_calls = self._eve.timer_calls ∧
      (handle_io_event F p self)._eve.timers = self._eve.timers ∧
      (handle_timer_event F p self)._eve.timers = self._eve.timers) := by
  obtain ⟨f1, f2, f3, f4⟩ := notify_all_frame F p.notes self
  refine ⟨?_, ?_, ?_⟩
  · intro hs
    have hc := update_timeout_calls p (notify_all F self p.notes) (f1.trans hs)
    rw [f2, f4] at hc
    refine ⟨hc, hc, fun hok => ?_⟩
    have h := update_timeout_armed p (notify_all F self p.notes) (f1.trans hs) hok
    rw [f2] at h
    exact ⟨h.1, h.2, h.1, h.2⟩
  · intro hprior
    have h := update_timeout_armed_count p (notify_all F self p.notes)
      (by rw [f2]; unfold EventEngine.armed_count; rw [f3]; exact hprior)
    rw [f2] at h
    exact ⟨h, h⟩
  · intro hs
    have h := update_timeout_idle p (notify_all F self p.notes) (f1.trans hs)
    unfold handle_io_event handle_timer_event
    rw [h]
    exact ⟨f4, f4, f3, f3⟩

/-- Witness of C2: a pass with a pending timeout re-arms a handle that was armed, with one
`add_timer` call, and a pass without one disarms it. -/
theorem timer_armed_iff_pending_witness :
    (handle_io_event ⟨16, 2, 4⟩ ⟨[Notification.fd_added 3 1 true], 1, ⟨0, 500⟩, true⟩
        ⟨⟨[], [], [(9, ⟨1, 0⟩)]⟩, [], true, 9, 100⟩)._eve.timer_calls
      = [ReactorCall.add_timer 9 ⟨0, 500⟩ Callback.handle_timer_event] ∧
    ((handle_io_event ⟨16, 2, 4⟩ ⟨[Notification.fd_added 3 1 true], 1, ⟨0, 500⟩, true⟩
        ⟨⟨[], [], [(9, ⟨1, 0⟩)]⟩, [], true, 9, 100⟩)._eve.armed_count 9 ≤ 1 ∧
      ((handle_io_event ⟨16, 2, 4⟩ ⟨[Notification.fd_added 3 1 true], 1, ⟨0, 500⟩, true⟩
        ⟨⟨[], [], [(9, ⟨1, 0⟩)]⟩, [], true, 9, 100⟩)._eve.armed 9 = true ↔ (0 : Int) < 1)) ∧
    (handle_timer_event ⟨16, 2, 4⟩ ⟨[], 0, ⟨0, 0⟩, true⟩
        ⟨⟨[], [], [(9, ⟨1, 0⟩)]⟩, [], true, 9, 100⟩)._eve.timers = [] := by
  have h := (timer_armed_iff_pending ⟨16, 2, 4⟩
    ⟨[Notification.fd_added 3 1 true], 1, ⟨0, 500⟩, true⟩
    ⟨⟨[], [], [(9, ⟨1, 0⟩)]⟩, [], true, 9, 100⟩).1 rfl
  have h2 := h.2.2 (fun _ => rfl)
  exact ⟨h.1, ⟨h2.1, h2.2.1⟩, by decide⟩

/-! ## The transfer state machines -/

theorem control_call_of_some (alloc : Option Nat) (handle : Nat) (buffer : BytePtr)
    (timeout : Duration) (self : USBControlTransfer) (t : libusb_transfer)
    (h : self._transfer = some t) :
    self.call alloc handle buffer timeout =
      { self with
        _transfer := some (libusb_fill_control_transfer t handle buffer
          TransferCallback.control_resume self.this (timeout_ms timeout))
        events := self.events ++ [Event.fill_transfer]
        base := self.base.async_start Step.submit } := by
  unfold USBControlTransfer.call
  simp only [h]

theorem control_call_of_alloc (a : Nat) (handle : Nat) (buffer : BytePtr)
    (timeout : Duration) (self : USBControlTransfer) (h : self._transfer = none) :
    ∃ t, libusb_alloc_transfer (some a) = some t ∧ t.addr = a ∧
    self.call (some a) handle buffer timeout =
      { self with
        _transfer := some (libusb_fill_control_transfer t handle buffer
          TransferCallback.control_resume self.this (timeout_ms timeout))
        events := self.events ++ [Event.alloc_transfer, Event.fill_transfer]
        base := self.base.async_start Step.submit } := by
  refine ⟨_, rfl, rfl, ?_⟩
  unfold USBControlTransfer.call
  simp [h, libusb_alloc_transfer]

theorem control_call_of_no_mem (handle : Nat) (buffer : BytePtr)
    (timeout : Duration) (self : USBControlTransfer) (h : self._transfer = none) :
    self.call none handle buffer timeout =
      { self with
        events := self.events ++ [Event.alloc_transfer]
        base := self.base.async_throw (make_error_usb LIBUSB_ERROR_NO_MEM) } := by
  unfold USBControlTransfer.call
  simp [h, libusb_alloc_transfer]

theorem control_drive_of_failure (env : Answers) (self : USBControlTransfer)
    (hp : self.base.phase = Phase.started Step.submit) (hret : env.submit_ret < 0) :
    self.drive env =
      { self with
        events := self.events ++ [Event.submit_entered, Event.submit_transfer]
        base := self.base.async_throw (make_error_usb env.submit_ret) } := by
  simp [USBControlTransfer.drive, USBControlTransfer.run, hp, USBControlTransfer.submit, hret,
    AsyncFunction.is_suspended, AsyncFunction.async_throw]

theorem control_drive_of_success (env : Answers) (self : USBControlTransfer)
    (t : libusb_transfer)
    (hp : self.base.phase = Phase.started Step.submit) (ht : self._transfer = some t)
    (hcb : t.callback = some TransferCallback.control_resume) (hret : 0 ≤ env.submit_ret) :
    self.drive env =
      { self with
        _transfer := some { t with status := env.status, actual_length := env.actual_length }
        events := self.events ++ [Event.submit_entered, Event.submit_transfer, Event.suspend,
          Event.completed_entered]
        base :=
          if env.status ≠ LIBUSB_TRANSFER_COMPLETED then
            { phase := Phase.raised (make_error_transfer env.status), result := self.base.result }
          else { phase := Phase.returned, result := some env.actual_length } } := by
  have hret' : ¬ env.submit_ret < 0 := by omega
  simp only [USBControlTransfer.drive, USBControlTransfer.run, hp, USBControlTransfer.submit,
    hret', if_false, AsyncFunction.async_start, AsyncFunction.async_suspend,
    AsyncFunction.is_suspended, if_true, USBControlTransfer.complete, ht, hcb,
    USBControlTransfer.resume, USBControlTransfer.completed]
  by_cases hs : env.status = LIBUSB_TRANSFER_COMPLETED
  · simp [hs, AsyncFunction.async_return, AsyncFunction.emplace_result]
  · simp [hs, AsyncFunction.async_throw]

theorem control_drive_of_raised (env : Answers) (self : USBControlTransfer) (e : Error)
    (hp : self.base.phase = Phase.raised e) : self.drive env = self := by
  simp [USBControlTransfer.drive, USBControlTransfer.run, hp, AsyncFunction.is_suspended]

theorem bulk_call_of_some (alloc : Option Nat) (handle : Nat) (endpoint : Nat) (buffer : SliceRead)
    (timeout : Duration) (self : USBBulkTransfer) (t : libusb_transfer)
    (h : self._transfer = some t) :
    self.call alloc handle endpoint buffer timeout =
      { self with
        _transfer := some (libusb_fill_bulk_transfer t handle endpoint buffer.data
          (to_int32 buffer.size) TransferCallback.bulk_resume self.this (timeout_ms timeout))
        events := self.events ++ [Event.fill_transfer]
        base := self.base.async_start Step.submit } := by
  unfold USBBulkTransfer.call
  simp only [h]

theorem bulk_call_of_alloc (a : Nat) (handle : Nat) (endpoint : Nat) (buffer : SliceRead)
    (timeout : Duration) (self : USBBulkTransfer) (h : self._transfer = none) :
    ∃ t, libusb_alloc_transfer (some a) = some t ∧ t.addr = a ∧
    self.call (some a) handle endpoint buffer timeout =
      { self with
        _transfer := some (libusb_fill_bulk_transfer t handle endpoint buffer.data
          (to_int32 buffer.size) TransferCallback.bulk_resume self.this (timeout_ms timeout))
        events := self.events ++ [Event.alloc_transfer, Event.fill_transfer]
        base := self.base.async_start Step.submit } := by
  refine ⟨_, rfl, rfl, ?_⟩
  unfold USBBulkTransfer.call
  simp [h, libusb_alloc_transfer]

theorem bulk_call_of_no_mem (handle : Nat) (endpoint : Nat) (buffer : SliceRead)
    (timeout : Duration) (self : USBBulkTransfer) (h : self._transfer = none) :
    self.call none handle endpoint buffer timeout =
      { self with
        events := self.events ++ [Event.alloc_transfer]
        base := self.base.async_throw (make_error_usb LIBUSB_ERROR_NO_MEM) } := by
  unfold USBBulkTransfer.call
  simp [h, libusb_alloc_transfer]

theorem bulk_drive_of_failure (env : Answers) (self : USBBulkTransfer)
    (hp : self.base.phase = Phase.started Step.submit) (hret : env.submit_ret < 0) :
    self.drive env =
      { self with
        events := self.events ++ [Event.submit_entered, Event.submit_transfer]
        base := self.base.async_throw (make_error_usb env.submit_ret) } := by
  simp [USBBulkTransfer.drive, USBBulkTransfer.run, hp, USBBulkTransfer.submit, hret,
    AsyncFunction.is_suspended, AsyncFunction.async_throw]

theorem bulk_drive_of_success (env : Answers) (self : USBBulkTransfer)
    (t : libusb_transfer)
    (hp : self.base.phase = Phase.started Step.submit) (ht : self._transfer = some t)
    (hcb : t.callback = some TransferCallback.bulk_resume) (hret : 0 ≤ env.submit_ret) :
    self.drive env =
      { self with
        _transfer := some { t with status := env.status, actual_length := env.actual_length }
        events := self.events ++ [Event.submit_entered, Event.submit_transfer, Event.suspend,
          Event.completed_entered]
        base :=
          if env.status ≠ LIBUSB_TRANSFER_COMPLETED then
            { phase := Phase.raised (make_error_transfer env.status), result := self.base.result }
          else { phase := Phase.returned, result := some env.actual_length } } := by
  have hret' : ¬ env.submit_ret < 0 := by omega
  simp only [USBBulkTransfer.drive, USBBulkTransfer.run, hp, USBBulkTransfer.submit,
    hret', if_false, AsyncFunction.async_start, AsyncFunction.async_suspend,
    AsyncFunction.is_suspended, if_true, USBBulkTransfer.complete, ht, hcb,
    USBBulkTransfer.resume, USBBulkTransfer.completed]
  by_cases hs : env.status = LIBUSB_TRANSFER_COMPLETED
  · simp [hs, AsyncFunction.async_return, AsyncFunction.emplace_result]
  · simp [hs, AsyncFunction.async_throw]

theorem bulk_drive_of_raised (env : Answers) (self : USBBulkTransfer) (e : Error)
    (hp : self.base.phase = Phase.raised e) : self.drive env = self := by
  simp [USBBulkTransfer.drive, USBBulkTransfer.run, hp, AsyncFunction.is_suspended]

theorem control_drive_facts (env : Answers) (self : USBControlTransfer)
    (t : libusb_transfer)
    (hp : self.base.phase = Phase.started Step.submit) (ht : self._transfer = some t)
    (hcb : t.callback = some TransferCallback.control_resume) :
    (∃ t2, (self.drive env)._transfer = some t2 ∧ t2.addr = t.addr) ∧
    (self.drive env).this = self.this ∧
    (∃ added, (self.drive env).events = self.events ++ added ∧
      Event.alloc_transfer ∉ added ∧ Event.fill_transfer ∉ added) ∧
    (self.drive env).base.outcome
      = some (resolution env.submit_ret env.status env.actual_length) := by
  by_cases hret : env.submit_ret < 0
  · rw [control_drive_of_failure env self hp hret]
    refine ⟨⟨t, ht, rfl⟩, rfl, ⟨_, rfl, by decide, by decide⟩, ?_⟩
    simp [resolution, hret, AsyncFunction.outcome, AsyncFunction.async_throw]
  · rw [control_drive_of_success env self t hp ht hcb (by omega)]
    refine ⟨⟨_, rfl, rfl⟩, rfl, ⟨_, rfl, by decide, by decide⟩, ?_⟩
    by_cases hs : env.status = LIBUSB_TRANSFER_COMPLETED <;>
      simp [resolution, hret, hs, AsyncFunction.outcome]

theorem control_invoke_of_some (env : Answers) (handle : Nat) (buffer : BytePtr)
    (timeout : Duration) (self : USBControlTransfer) (t : libusb_transfer)
    (h : self._transfer = some t) :
    (∃ t2, (self.invoke env handle buffer timeout)._transfer = some t2 ∧ t2.addr = t.addr) ∧
    (self.invoke env handle buffer timeout).this = self.this ∧
    (∃ added, (self.invoke env handle buffer timeout).events = self.events ++ added ∧
      Event.alloc_transfer ∉ added) ∧
    (self.invoke env handle buffer timeout).base.outcome
      = some (resolution env.submit_ret env.status env.actual_length) := by
  unfold USBControlTransfer.invoke
  have hcall := control_call_of_some env.alloc handle buffer timeout self t h
  obtain ⟨⟨t2, ht2, ha⟩, hthis, ⟨added, hadd, hno, -⟩, hout⟩ :=
    control_drive_facts env (self.call env.alloc handle buffer timeout)
      (libusb_fill_control_transfer t handle buffer TransferCallback.control_resume self.this
        (timeout_ms timeout))
      (by rw [hcall]; rfl) (by rw [hcall]) rfl
  refine ⟨⟨t2, ht2, ha⟩, by rw [hthis, hcall], ⟨Event.fill_transfer :: added, ?_, ?_⟩, hout⟩
  · rw [hadd, hcall]; simp
  · simp [hno]

theorem control_invoke_of_alloc (env : Answers) (a : Nat) (handle : Nat)
    (buffer : BytePtr) (timeout : Duration) (self : USBControlTransfer)
    (h : self._transfer = none) (halloc : env.alloc = some a) :
    (∃ t2, (self.invoke env handle buffer timeout)._transfer = some t2 ∧ t2.addr = a) ∧
    (self.invoke env handle buffer timeout).this = self.this ∧
    (∃ added, (self.invoke env handle buffer timeout).events = self.events ++ added ∧
      added.count Event.alloc_transfer = 1) ∧
    (self.invoke env handle buffer timeout).base.outcome
      = some (resolution env.submit_ret env.status env.actual_length) := by
  unfold USBControlTransfer.invoke
  rw [halloc]
  obtain ⟨t, -, hta, hcall⟩ := control_call_of_alloc a handle buffer timeout self h
  obtain ⟨⟨t2, ht2, ha⟩, hthis, ⟨added, hadd, hno, -⟩, hout⟩ :=
    control_drive_facts env (self.call (some a) handle buffer timeout)
      (libusb_fill_control_transfer t handle buffer TransferCallback.control_resume self.this
        (timeout_ms timeout))
      (by rw [hcall]; rfl) (by rw [hcall]) rfl
  refine ⟨⟨t2, ht2, by rw [ha]; exact hta⟩, by rw [hthis, hcall],
    ⟨Event.alloc_transfer :: Event.fill_transfer :: added, ?_, ?_⟩, hout⟩
  · rw [hadd, hcall]; simp
  · simp [List.count_eq_zero_of_not_mem hno]

theorem bulk_drive_facts (env : Answers) (self : USBBulkTransfer)
    (t : libusb_transfer)
    (hp : self.base.phase = Phase.started Step.submit) (ht : self._transfer = some t)
    (hcb : t.callback = some TransferCallback.bulk_resume) :
    (∃ t2, (self.drive env)._transfer = some t2 ∧ t2.addr = t.addr) ∧
    (self.drive env).this = self.this ∧
    (∃ added, (self.drive env).events = self.events ++ added ∧
      Event.alloc_transfer ∉ added ∧ Event.fill_transfer ∉ added) ∧
    (self.drive env).base.outcome
      = some (resolution env.submit_ret env.status env.actual_length) := by
  by_cases hret : env.submit_ret < 0
  · rw [bulk_drive_of_failure env self hp hret]
    refine ⟨⟨t, ht, rfl⟩, rfl, ⟨_, rfl, by decide, by decide⟩, ?_⟩
    simp [resolution, hret, AsyncFunction.outcome, AsyncFunction.async_throw]
  · rw [bulk_drive_of_success env self t hp ht hcb (by omega)]
    refine ⟨⟨_, rfl, rfl⟩, rfl, ⟨_, rfl, by decide, by decide⟩, ?_⟩
    by_cases hs : env.status = LIBUSB_TRANSFER_COMPLETED <;>
      simp [resolution, hret, hs, AsyncFunction.outcome]

theorem bulk_invoke_of_some (env : Answers) (handle : Nat) (endpoint : Nat) (buffer : SliceRead)
    (timeout : Duration) (self : USBBulkTransfer) (t : libusb_transfer)
    (h : self._transfer = some t) :
    (∃ t2, (self.invoke env handle endpoint buffer timeout)._transfer = some t2 ∧ t2.addr = t.addr) ∧
    (self.invoke env handle endpoint buffer timeout).this = self.this ∧
    (∃ added, (self.invoke env handle endpoint buffer timeout).events = self.events ++ added ∧
      Event.alloc_transfer ∉ added) ∧
    (self.invoke env handle endpoint buffer timeout).base.outcome
      = some (resolution env.submit_ret env.status env.actual_length) := by
  unfold USBBulkTransfer.invoke
  have hcall := bulk_call_of_some env.alloc handle endpoint buffer timeout self t h
  obtain ⟨⟨t2, ht2, ha⟩, hthis, ⟨added, hadd, hno, -⟩, hout⟩ :=
    bulk_drive_facts env (self.call env.alloc handle endpoint buffer timeout)
      (libusb_fill_bulk_transfer t handle endpoint buffer.data (to_int32 buffer.size)
        TransferCallback.bulk_resume self.this (timeout_ms timeout))
      (by rw [hcall]; rfl) (by rw [hcall]) rfl
  refine ⟨⟨t2, ht2, ha⟩, by rw [hthis, hcall], ⟨Event.fill_transfer :: added, ?_, ?_⟩, hout⟩
  · rw [hadd, hcall]; simp
  · simp [hno]

theorem bulk_invoke_of_alloc (env : Answers) (a : Nat) (handle : Nat)
    (endpoint : Nat) (buffer : SliceRead) (timeout : Duration) (self : USBBulkTransfer)
    (h : self._transfer = none) (halloc : env.alloc = some a) :
    (∃ t2, (self.invoke env handle endpoint buffer timeout)._transfer = some t2 ∧ t2.addr = a) ∧
    (self.invoke env handle endpoint buffer timeout).this = self.this ∧
    (∃ added, (self.invoke env handle endpoint buffer timeout).events = self.events ++ added ∧
      added.count Event.alloc_transfer = 1) ∧
    (self.invoke env handle endpoint buffer timeout).base.outcome
      = some (resolution env.submit_ret env.status env.actual_length) := by
  unfold USBBulkTransfer.invoke
  rw [halloc]
  obtain ⟨t, -, hta, hcall⟩ := bulk_call_of_alloc a handle endpoint buffer timeout self h
  obtain ⟨⟨t2, ht2, ha⟩, hthis, ⟨added, hadd, hno, -⟩, hout⟩ :=
    bulk_drive_facts env (self.call (some a) handle endpoint buffer timeout)
      (libusb_fill_bulk_transfer t handle endpoint buffer.data (to_int32 buffer.size)
        TransferCallback.bulk_resume self.this (timeout_ms timeout))
      (by rw [hcall]; rfl) (by rw [hcall]) rfl
  refine ⟨⟨t2, ht2, by rw [ha]; exact hta⟩, by rw [hthis, hcall],
    ⟨Event.alloc_transfer :: Event.fill_transfer :: added, ?_, ?_⟩, hout⟩
  · rw [hadd, hcall]; simp
  · simp [List.count_eq_zero_of_not_mem hno]

theorem control_first_invocation (env : Answers) (handle : Nat) (buffer : BytePtr)
    (timeout : Duration) (self : USBControlTransfer)
    (h : self._transfer.isSome ∨ env.alloc.isSome) :
    (∃ t1, (self.invoke env handle buffer timeout)._transfer = some t1) ∧
    (self.invoke env handle buffer timeout).this = self.this ∧
    (∃ added, (self.invoke env handle buffer timeout).events = self.events ++ added ∧
      added.count Event.alloc_transfer ≤ 1) ∧
    (self.invoke env handle buffer timeout).base.outcome
      = some (resolution env.submit_ret env.status env.actual_length) := by
  cases htr : self._transfer with
  | some t =>
    obtain ⟨⟨t1, h1, -⟩, h2, ⟨added, h3, h4⟩, h5⟩ :=
      control_invoke_of_some env handle buffer timeout self t htr
    exact ⟨⟨t1, h1⟩, h2, ⟨added, h3, by simp [List.count_eq_zero_of_not_mem h4]⟩, h5⟩
  | none =>
    cases ha : env.alloc with
    | none => simp [htr, ha] at h
    | some a =>
      obtain ⟨⟨t1, h1, -⟩, h2, ⟨added, h3, h4⟩, h5⟩ :=
        control_invoke_of_alloc env a handle buffer timeout self htr ha
      exact ⟨⟨t1, h1⟩, h2, ⟨added, h3, by omega⟩, h5⟩

theorem control_second_invocation (env1 env2 : Answers) (c : USBControlTransfer)
    (handle1 : Nat) (cbuf1 : BytePtr) (timeout1 : Duration)
    (handle2 : Nat) (setup2 : List Nat) (timeout2 : Duration)
    (hc : c._transfer.isSome ∨ env1.alloc.isSome) :
    ∃ m1 m2 t1 added1 added2,
      m1 = c.invoke env1 handle1 cbuf1 timeout1 ∧
      m2 = m1.invoke env2 handle2 (some setup2) timeout2 ∧
      m1.base.outcome = some (resolution env1.submit_ret env1.status env1.actual_length) ∧
      m1._transfer = some t1 ∧
      (m1.call env2.alloc handle2 (some setup2) timeout2)._transfer = some
        { addr := t1.addr, dev_handle := handle2, endpoint := 0,
          type := LIBUSB_TRANSFER_TYPE_CONTROL, timeout := timeout_ms timeout2,
          status := t1.status,
          length := ((LIBUSB_CONTROL_SETUP_SIZE + setup_wLength setup2 : Nat) : Int),
          actual_length := t1.actual_length,
          callback := some TransferCallback.control_resume, user_data := c.this,
          buffer := some setup2 } ∧
      m2._transfer.map (fun t => t.addr) = some t1.addr ∧
      m1.events = c.events ++ added1 ∧ m2.events = m1.events ++ added2 ∧
      (added1 ++ added2).count Event.alloc_transfer ≤ 1 ∧
      Event.alloc_transfer ∉ added2 ∧
      m2.base.outcome = some (resolution env2.submit_ret env2.status env2.actual_length) := by
  obtain ⟨⟨t1, h1⟩, hthis, ⟨added1, he1, hc1⟩, ho1⟩ :=
    control_first_invocation env1 handle1 cbuf1 timeout1 c hc
  obtain ⟨⟨t2, h2, ha2⟩, -, ⟨added2, he2, hno2⟩, ho2⟩ :=
    control_invoke_of_some env2 handle2 (some setup2) timeout2
      (c.invoke env1 handle1 cbuf1 timeout1) t1 h1
  refine ⟨_, _, t1, added1, added2, rfl, rfl, ho1, h1, ?_, ?_, he1, he2, ?_, hno2, ho2⟩
  · rw [control_call_of_some _ _ _ _ _ t1 h1, hthis]
    rfl
  · rw [h2, Option.map_some', ha2]
  · rw [List.count_append, List.count_eq_zero_of_not_mem hno2]
    omega

theorem bulk_first_invocation (env : Answers) (handle : Nat) (endpoint : Nat) (buffer : SliceRead)
    (timeout : Duration) (self : USBBulkTransfer)
    (h : self._transfer.isSome ∨ env.alloc.isSome) :
    (∃ t1, (self.invoke env handle endpoint buffer timeout)._transfer = some t1) ∧
    (self.invoke env handle endpoint buffer timeout).this = self.this ∧
    (∃ added, (self.invoke env handle endpoint buffer timeout).events = self.events ++ added ∧
      added.count Event.alloc_transfer ≤ 1) ∧
    (self.invoke env handle endpoint buffer timeout).base.outcome
      = some (resolution env.submit_ret env.status env.actual_length) := by
  cases htr : self._transfer with
  | some t =>
    obtain ⟨⟨t1, h1, -⟩, h2, ⟨added, h3, h4⟩, h5⟩ :=
      bulk_invoke_of_some env handle endpoint buffer timeout self t htr
    exact ⟨⟨t1, h1⟩, h2, ⟨added, h3, by simp [List.count_eq_zero_of_not_mem h4]⟩, h5⟩
  | none =>
    cases ha : env.alloc with
    | none => simp [htr, ha] at h
    | some a =>
      obtain ⟨⟨t1, h1, -⟩, h2, ⟨added, h3, h4⟩, h5⟩ :=
        bulk_invoke_of_alloc env a handle endpoint buffer timeout self htr ha
      exact ⟨⟨t1, h1⟩, h2, ⟨added, h3, by omega⟩, h5⟩

theorem bulk_second_invocation (env1 env2 : Answers) (b : USBBulkTransfer)
    (handle1 : Nat) (endpoint1 : Nat) (bbuf1 : SliceRead) (timeout1 : Duration)
    (handle2 : Nat) (endpoint2 : Nat) (bbuf2 : SliceRead) (timeout2 : Duration)
    (hc : b._transfer.isSome ∨ env1.alloc.isSome) :
    ∃ m1 m2 t1 added1 added2,
      m1 = b.invoke env1 handle1 endpoint1 bbuf1 timeout1 ∧
      m2 = m1.invoke env2 handle2 endpoint2 bbuf2 timeout2 ∧
      m1.base.outcome = some (resolution env1.submit_ret env1.status env1.actual_length) ∧
      m1._transfer = some t1 ∧
      (m1.call env2.alloc handle2 endpoint2 bbuf2 timeout2)._transfer = some
        { addr := t1.addr, dev_handle := handle2, endpoint := endpoint2,
          type := LIBUSB_TRANSFER_TYPE_BULK, timeout := timeout_ms timeout2,
          status := t1.status,
          length := to_int32 bbuf2.size,
          actual_length := t1.actual_length,
          callback := some TransferCallback.bulk_resume, user_data := b.this,
          buffer := bbuf2.data } ∧
      m2._transfer.map (fun t => t.addr) = some t1.addr ∧
      m1.events = b.events ++ added1 ∧ m2.events = m1.events ++ added2 ∧
      (added1 ++ added2).count Event.alloc_transfer ≤ 1 ∧
      Event.alloc_transfer ∉ added2 ∧
      m2.base.outcome = some (resolution env2.submit_ret env2.status env2.actual_length) := by
  obtain ⟨⟨t1, h1⟩, hthis, ⟨added1, he1, hc1⟩, ho1⟩ :=
    bulk_first_invocation env1 handle1 endpoint1 bbuf1 timeout1 b hc
  obtain ⟨⟨t2, h2, ha2⟩, -, ⟨added2, he2, hno2⟩, ho2⟩ :=
    bulk_invoke_of_some env2 handle2 endpoint2 bbuf2 timeout2
      (b.invoke env1 handle1 endpoint1 bbuf1 timeout1) t1 h1
  refine ⟨_, _, t1, added1, added2, rfl, rfl, ho1, h1, ?_, ?_, he1, he2, ?_, hno2, ho2⟩
  · rw [bulk_call_of_some _ _ _ _ _ _ t1 h1, hthis]
    rfl
  · rw [h2, Option.map_some', ha2]
  · rw [List.count_append, List.count_eq_zero_of_not_mem hno2]
    omega

/-! ## Whole invocations -/

theorem control_invoke_phase_started (alloc : Option Nat) (handle : Nat)
    (buffer : BytePtr) (timeout : Duration) (self : USBControlTransfer)
    (h : self._transfer.isSome ∨ alloc.isSome) :
    ∃ t, (self.call alloc handle buffer timeout)._transfer = some t ∧
      t.callback = some TransferCallback.control_resume ∧
      (self.call alloc handle buffer timeout).base.phase = Phase.started Step.submit := by
  cases htr : self._transfer with
  | some t => rw [control_call_of_some _ _ _ _ _ t htr]; exact ⟨_, rfl, rfl, rfl⟩
  | none =>
    cases alloc with
    | none => simp [htr] at h
    | some a =>
      obtain ⟨t, -, -, ht⟩ := control_call_of_alloc a handle buffer timeout self htr
      rw [ht]; exact ⟨_, rfl, rfl, rfl⟩

theorem bulk_invoke_phase_started (alloc : Option Nat) (handle : Nat) (endpoint : Nat)
    (buffer : SliceRead) (timeout : Duration) (self : USBBulkTransfer)
    (h : self._transfer.isSome ∨ alloc.isSome) :
    ∃ t, (self.call alloc handle endpoint buffer timeout)._transfer = some t ∧
      t.callback = some TransferCallback.bulk_resume ∧
      (self.call alloc handle endpoint buffer timeout).base.phase = Phase.started Step.submit := by
  cases htr : self._transfer with
  | some t => rw [bulk_call_of_some _ _ _ _ _ _ t htr]; exact ⟨_, rfl, rfl, rfl⟩
  | none =>
    cases alloc with
    | none => simp [htr] at h
    | some a =>
      obtain ⟨t, -, -, ht⟩ := bulk_call_of_alloc a handle endpoint buffer timeout self htr
      rw [ht]; exact ⟨_, rfl, rfl, rfl⟩

/-- C3: after a successful submission the completion resolves the invocation from the status and
the actual length alone, for both machines: success with exactly the actual length when the
status is `LIBUSB_TRANSFER_COMPLETED` (the code 0), and otherwise the error of the category
`transfer` whose carried value is exactly the status. -/
theorem completion_resolves_from_status (env : Answers) (handle : Nat) (timeout : Duration)
    (cbuf : BytePtr) (endpoint : Nat) (bbuf : SliceRead)
    (c : USBControlTransfer) (b : USBBulkTransfer)
    (hc : c._transfer.isSome ∨ env.alloc.isSome)
    (hb : b._transfer.isSome ∨ env.alloc.isSome)
    (hret : 0 ≤ env.submit_ret) :
    ((c.invoke env handle cbuf timeout).base.outcome =
        if env.status = 0 then some (Outcome.success env.actual_length)
        else some (Outcome.error { category := Category.transfer, value := env.status })) ∧
    ((b.invoke env handle endpoint bbuf timeout).base.outcome =
        if env.status = 0 then some (Outcome.success env.actual_length)
        else some (Outcome.error { category := Category.transfer, value := env.status })) := by
  constructor
  · obtain ⟨t, ht, hcb, hp⟩ := control_invoke_phase_started env.alloc handle cbuf timeout c hc
    unfold USBControlTransfer.invoke
    rw [control_drive_of_success env _ t hp ht hcb hret]
    by_cases hs : env.status = 0 <;>
      simp [hs, AsyncFunction.outcome, LIBUSB_TRANSFER_COMPLETED, make_error_transfer]
  · obtain ⟨t, ht, hcb, hp⟩ := bulk_invoke_phase_started env.alloc handle endpoint bbuf timeout b hb
    unfold USBBulkTransfer.invoke
    rw [bulk_drive_of_success env _ t hp ht hcb hret]
    by_cases hs : env.status = 0 <;>
      simp [hs, AsyncFunction.outcome, LIBUSB_TRANSFER_COMPLETED, make_error_transfer]

/-- Witness of C3: status completed with actual length 37 gives the value 37 on a new control
instance, and status stall gives the transfer error carrying stall on a new bulk instance. -/
theorem completion_resolves_from_status_witness :
    ((USBControlTransfer.create 1).invoke ⟨some 100, 0, LIBUSB_TRANSFER_COMPLETED, 37⟩ 5
        (some [128, 6, 0, 1, 0, 0, 64, 0]) (Duration.signed 1 1 1)).base.outcome
      = some (Outcome.success 37) ∧
    ((USBBulkTransfer.create 2).invoke ⟨some 200, 0, LIBUSB_TRANSFER_STALL, 0⟩ 5 129
        ⟨some [0, 0], 2⟩ (Duration.signed 1 1 1)).base.outcome
      = some (Outcome.error { category := Category.transfer, value := 4 }) :=
  ⟨(completion_resolves_from_status ⟨some 100, 0, LIBUSB_TRANSFER_COMPLETED, 37⟩ 5 (Duration.signed 1 1 1)
      (some [128, 6, 0, 1, 0, 0, 64, 0]) 129 ⟨some [0, 0], 2⟩
      (USBControlTransfer.create 1) (USBBulkTransfer.create 2)
      (Or.inr rfl) (Or.inr rfl) (by decide)).1,
   (completion_resolves_from_status ⟨some 200, 0, LIBUSB_TRANSFER_STALL, 0⟩ 5 (Duration.signed 1 1 1)
      (some [128, 6, 0, 1, 0, 0, 64, 0]) 129 ⟨some [0, 0], 2⟩
      (USBControlTransfer.create 1) (USBBulkTransfer.create 2)
      (Or.inr rfl) (Or.inr rfl) (by decide)).2⟩

/-- C4: for both machines and every negative result of `libusb_submit_transfer`, the invocation
is resolved with the error of the category `usb` whose carried value is exactly that result; what the invocation adds to
the record of the instance contains the submit call but neither a suspension nor an entry into
`completed`, and the caller is not suspended. -/
theorem submit_failure_resolves (env : Answers) (handle : Nat) (timeout : Duration)
    (cbuf : BytePtr) (endpoint : Nat) (bbuf : SliceRead)
    (c : USBControlTransfer) (b : USBBulkTransfer)
    (hc : c._transfer.isSome ∨ env.alloc.isSome)
    (hb : b._transfer.isSome ∨ env.alloc.isSome)
    (hret : env.submit_ret < 0) :
    ((c.invoke env handle cbuf timeout).base.phase
        = Phase.raised { category := Category.usb, value := env.submit_ret } ∧
      (c.invoke env handle cbuf timeout).base.outcome
        = some (Outcome.error { category := Category.usb, value := env.submit_ret }) ∧
      (c.invoke env handle cbuf timeout).base.is_suspended = false ∧
      ∃ added, (c.invoke env handle cbuf timeout).events = c.events ++ added ∧
        Event.submit_transfer ∈ added ∧ Event.suspend ∉ added ∧
        Event.completed_entered ∉ added) ∧
    ((b.invoke env handle endpoint bbuf timeout).base.phase
        = Phase.raised { category := Category.usb, value := env.submit_ret } ∧
      (b.invoke env handle endpoint bbuf timeout).base.outcome
        = some (Outcome.error { category := Category.usb, value := env.submit_ret }) ∧
      (b.invoke env handle endpoint bbuf timeout).base.is_suspended = false ∧
      ∃ added, (b.invoke env handle endpoint bbuf timeout).events = b.events ++ added ∧
        Event.submit_transfer ∈ added ∧ Event.suspend ∉ added ∧
        Event.completed_entered ∉ added) := by
  constructor
  · have hp := control_invoke_phase_started env.alloc handle cbuf timeout c hc
    obtain ⟨t, -, -, hp⟩ := hp
    unfold USBControlTransfer.invoke
    rw [control_drive_of_failure env _ hp hret]
    refine ⟨rfl, rfl, rfl, ?_⟩
    cases htr : c._transfer with
    | some t0 =>
      rw [control_call_of_some _ _ _ _ _ t0 htr]
      exact ⟨[Event.fill_transfer, Event.submit_entered, Event.submit_transfer],
        by simp, by decide, by decide, by decide⟩
    | none =>
      cases ha : env.alloc with
      | none => simp [htr, ha] at hc
      | some a =>
        obtain ⟨t1, -, -, ht⟩ := control_call_of_alloc a handle cbuf timeout c htr
        rw [ht]
        exact ⟨[Event.alloc_transfer, Event.fill_transfer, Event.submit_entered,
          Event.submit_transfer], by simp, by decide, by decide, by decide⟩
  · have hp := bulk_invoke_phase_started env.alloc handle endpoint bbuf timeout b hb
    obtain ⟨t, -, -, hp⟩ := hp
    unfold USBBulkTransfer.invoke
    rw [bulk_drive_of_failure env _ hp hret]
    refine ⟨rfl, rfl, rfl, ?_⟩
    cases htr : b._transfer with
    | some t0 =>
      rw [bulk_call_of_some _ _ _ _ _ _ t0 htr]
      exact ⟨[Event.fill_transfer, Event.submit_entered, Event.submit_transfer],
        by simp, by decide, by decide, by decide⟩
    | none =>
      cases ha : env.alloc with
      | none => simp [htr, ha] at hb
      | some a =>
        obtain ⟨t1, -, -, ht⟩ := bulk_call_of_alloc a handle endpoint bbuf timeout b htr
        rw [ht]
        exact ⟨[Event.alloc_transfer, Event.fill_transfer, Event.submit_entered,
          Event.submit_transfer], by simp, by decide, by decide, by decide⟩

/-- Witness of C4: the submit result `LIBUSB_ERROR_NO_DEVICE`, which is -4, on new instances. -/
theorem submit_failure_resolves_witness :
    LIBUSB_ERROR_NO_DEVICE < 0 ∧
    ((USBControlTransfer.create 1).invoke ⟨some 100, LIBUSB_ERROR_NO_DEVICE, 0, 0⟩ 5
        (some [128, 6, 0, 1, 0, 0, 64, 0]) (Duration.signed 1 1 1)).base.outcome
      = some (Outcome.error { category := Category.usb, value := -4 }) ∧
    ((USBBulkTransfer.create 2).invoke ⟨some 100, LIBUSB_ERROR_NO_DEVICE, 0, 0⟩ 5 129
        ⟨some [0, 0], 2⟩ (Duration.signed 1 1 1)).base.outcome
      = some (Outcome.error { category := Category.usb, value := -4 }) :=
  have h := submit_failure_resolves ⟨some 100, LIBUSB_ERROR_NO_DEVICE, 0, 0⟩ 5 (Duration.signed 1 1 1)
      (some [128, 6, 0, 1, 0, 0, 64, 0]) 129 ⟨some [0, 0], 2⟩
      (USBControlTransfer.create 1) (USBBulkTransfer.create 2)
      (Or.inr rfl) (Or.inr rfl) (by decide)
  ⟨by decide, h.1.2.1, h.2.2.1⟩

/-- C6: for both machines, when the instance has no descriptor and the allocation fails, the call
operator resolves the instance with the error of the category `usb` that carries
`LIBUSB_ERROR_NO_MEM`, which is -11, leaves `_transfer` null (nothing is
filled in), does not start the submit step, and the whole invocation adds only the allocation
attempt to the record of the instance: no fill, no submit step, no submit call. -/
theorem allocation_failure_resolves (env : Answers) (handle : Nat) (timeout : Duration)
    (cbuf : BytePtr) (endpoint : Nat) (bbuf : SliceRead)
    (c : USBControlTransfer) (b : USBBulkTransfer)
    (hc : c._transfer = none) (hb : b._transfer = none) (ha : env.alloc = none) :
    ((c.call env.alloc handle cbuf timeout).base.outcome
        = some (Outcome.error { category := Category.usb, value := -11 }) ∧
      (c.call env.alloc handle cbuf timeout)._transfer = none ∧
      (c.call env.alloc handle cbuf timeout).base.phase ≠ Phase.started Step.submit ∧
      c.invoke env handle cbuf timeout = c.call env.alloc handle cbuf timeout ∧
      (c.invoke env handle cbuf timeout).events = c.events ++ [Event.alloc_transfer]) ∧
    ((b.call env.alloc handle endpoint bbuf timeout).base.outcome
        = some (Outcome.error { category := Category.usb, value := -11 }) ∧
      (b.call env.alloc handle endpoint bbuf timeout)._transfer = none ∧
      (b.call env.alloc handle endpoint bbuf timeout).base.phase ≠ Phase.started Step.submit ∧
      b.invoke env handle endpoint bbuf timeout = b.call env.alloc handle endpoint bbuf timeout ∧
      (b.invoke env handle endpoint bbuf timeout).events = b.events ++ [Event.alloc_transfer]) := by
  constructor
  · unfold USBControlTransfer.invoke
    rw [ha, control_call_of_no_mem handle cbuf timeout c hc,
      control_drive_of_raised env _ _ rfl]
    exact ⟨rfl, hc, by simp [AsyncFunction.async_throw], rfl, rfl⟩
  · unfold USBBulkTransfer.invoke
    rw [ha, bulk_call_of_no_mem handle endpoint bbuf timeout b hb,
      bulk_drive_of_raised env _ _ rfl]
    exact ⟨rfl, hb, by simp [AsyncFunction.async_throw], rfl, rfl⟩

/-- Witness of C6: new instances and a failing allocator. -/
theorem allocation_failure_resolves_witness :
    ((USBControlTransfer.create 1).invoke ⟨none, 0, 0, 0⟩ 5
        (some [128, 6, 0, 1, 0, 0, 64, 0]) (Duration.signed 1 1 1)).events = [Event.alloc_transfer] ∧
    ((USBBulkTransfer.create 2).invoke ⟨none, 0, 0, 0⟩ 5 129 ⟨some [0, 0], 2⟩
        (Duration.signed 1 1 1)).events = [Event.alloc_transfer] ∧
    ((USBBulkTransfer.create 2).call none 5 129 ⟨some [0, 0], 2⟩ (Duration.signed 1 1 1)).base.outcome
      = some (Outcome.error { category := Category.usb, value := -11 }) :=
  have h := allocation_failure_resolves ⟨none, 0, 0, 0⟩ 5 (Duration.signed 1 1 1)
      (some [128, 6, 0, 1, 0, 0, 64, 0]) 129 ⟨some [0, 0], 2⟩
      (USBControlTransfer.create 1) (USBBulkTransfer.create 2) rfl rfl rfl
  ⟨h.1.2.2.2.2, h.2.2.2.2.2, h.2.1⟩

/-! ## The millisecond conversion -/

/-- C7 (counterexample): a first invocation whose allocation fails resolves with
`LIBUSB_ERROR_NO_MEM`; the second invocation then calls the allocator again, and when that
allocation fails too its outcome is `LIBUSB_ERROR_NO_MEM` whatever the submit result and the
completion would have been. -/
theorem second_invocation_counterexample :
    ((USBBulkTransfer.create 2).invoke ⟨none, 0, 0, 0⟩ 5 129 ⟨some [0, 0], 2⟩
        (Duration.signed 1 1 1)).base.outcome = some (Outcome.error (make_error_usb LIBUSB_ERROR_NO_MEM)) ∧
    (((USBBulkTransfer.create 2).invoke ⟨none, 0, 0, 0⟩ 5 129 ⟨some [0, 0], 2⟩
        (Duration.signed 1 1 1)).invoke ⟨some 200, 0, 0, 2⟩ 5 129 ⟨some [0, 0], 2⟩ (Duration.signed 1 1 1)).events
      = [Event.alloc_transfer, Event.alloc_transfer, Event.fill_transfer, Event.submit_entered,
          Event.submit_transfer, Event.suspend, Event.completed_entered] ∧
    (((USBBulkTransfer.create 2).invoke ⟨none, 0, 0, 0⟩ 5 129 ⟨some [0, 0], 2⟩
        (Duration.signed 1 1 1)).invoke ⟨none, 0, 0, 2⟩ 5 129 ⟨some [0, 0], 2⟩ (Duration.signed 1 1 1)).base.outcome
      = some (Outcome.error (make_error_usb LIBUSB_ERROR_NO_MEM)) ∧
    resolution 0 0 2 = Outcome.success 2 := by
  decide

/-- C7 (amended): when the first of two successive invocations obtained the descriptor (the
instance had one, or the allocation succeeded), then for both machines the first invocation is
resolved, the second call operator keeps the descriptor at its address and writes handle,
endpoint (0 for a control transfer), buffer, length (for a control transfer the length encoded
in the setup packet of the non-null second buffer), callback, user pointer and timeout from the
second arguments, the second invocation performs no allocation and both together at most one,
and the second outcome is a function of the second submit result, status and actual length. -/
theorem second_invocation_reuses_descriptor (env1 env2 : Answers)
    (c : USBControlTransfer) (b : USBBulkTransfer)
    (handle1 : Nat) (cbuf1 : BytePtr) (endpoint1 : Nat) (bbuf1 : SliceRead) (timeout1 : Duration)
    (handle2 : Nat) (setup2 : List Nat) (endpoint2 : Nat) (bbuf2 : SliceRead)
    (timeout2 : Duration)
    (hc : c._transfer.isSome ∨ env1.alloc.isSome)
    (hb : b._transfer.isSome ∨ env1.alloc.isSome) :
    (∃ m1 m2 t1 added1 added2,
      m1 = c.invoke env1 handle1 cbuf1 timeout1 ∧
      m2 = m1.invoke env2 handle2 (some setup2) timeout2 ∧
      m1.base.outcome = some (resolution env1.submit_ret env1.status env1.actual_length) ∧
      m1._transfer = some t1 ∧
      (m1.call env2.alloc handle2 (some setup2) timeout2)._transfer = some
        { addr := t1.addr, dev_handle := handle2, endpoint := 0,
          type := LIBUSB_TRANSFER_TYPE_CONTROL, timeout := timeout_ms timeout2,
          status := t1.status,
          length := ((LIBUSB_CONTROL_SETUP_SIZE + setup_wLength setup2 : Nat) : Int),
          actual_length := t1.actual_length,
          callback := some TransferCallback.control_resume, user_data := c.this,
          buffer := some setup2 } ∧
      m2._transfer.map (fun t => t.addr) = some t1.addr ∧
      m1.events = c.events ++ added1 ∧ m2.events = m1.events ++ added2 ∧
      (added1 ++ added2).count Event.alloc_transfer ≤ 1 ∧
      Event.alloc_transfer ∉ added2 ∧
      m2.base.outcome = some (resolution env2.submit_ret env2.status env2.actual_length)) ∧
    (∃ m1 m2 t1 added1 added2,
      m1 = b.invoke env1 handle1 endpoint1 bbuf1 timeout1 ∧
      m2 = m1.invoke env2 handle2 endpoint2 bbuf2 timeout2 ∧
      m1.base.outcome = some (resolution env1.submit_ret env1.status env1.actual_length) ∧
      m1._transfer = some t1 ∧
      (m1.call env2.alloc handle2 endpoint2 bbuf2 timeout2)._transfer = some
        { addr := t1.addr, dev_handle := handle2, endpoint := endpoint2,
          type := LIBUSB_TRANSFER_TYPE_BULK, timeout := timeout_ms timeout2,
          status := t1.status,
          length := to_int32 bbuf2.size,
          actual_length := t1.actual_length,
          callback := some TransferCallback.bulk_resume, user_data := b.this,
          buffer := bbuf2.data } ∧
      m2._transfer.map (fun t => t.addr) = some t1.addr ∧
      m1.events = b.events ++ added1 ∧ m2.events = m1.events ++ added2 ∧
      (added1 ++ added2).count Event.alloc_transfer ≤ 1 ∧
      Event.alloc_transfer ∉ added2 ∧
      m2.base.outcome = some (resolution env2.submit_ret env2.status env2.actual_length)) :=
  ⟨control_second_invocation env1 env2 c handle1 cbuf1 timeout1 handle2 setup2
      timeout2 hc,
    bulk_second_invocation env1 env2 b handle1 endpoint1 bbuf1 timeout1 handle2
      endpoint2 bbuf2 timeout2 hb⟩

/-- Witness of C7: a first invocation that stalls and a second one that completes with 5 bytes,
on new instances whose allocation succeeds. -/
theorem second_invocation_reuses_descriptor_witness :
    (((USBControlTransfer.create 1).invoke ⟨some 100, 0, LIBUSB_TRANSFER_STALL, 0⟩ 5
        (some [128, 6, 0, 1, 0, 0, 64, 0]) (Duration.signed 1 1 1)).invoke
        ⟨none, 0, LIBUSB_TRANSFER_COMPLETED, 5⟩ 6 (some [128, 6, 0, 2, 0, 0, 9, 0])
        (Duration.signed 2 1 1)).base.outcome = some (Outcome.success 5) ∧
    (((USBBulkTransfer.create 2).invoke ⟨some 100, 0, LIBUSB_TRANSFER_STALL, 0⟩ 5 129
        ⟨some [0, 0], 2⟩ (Duration.signed 1 1 1)).invoke
        ⟨none, 0, LIBUSB_TRANSFER_COMPLETED, 5⟩ 6 1 ⟨some [7], 1⟩
        (Duration.signed 2 1 1)).base.outcome = some (Outcome.success 5) := by
  obtain ⟨⟨_, _, _, _, _, rfl, rfl, -, -, -, -, -, -, -, -, hc⟩,
      ⟨_, _, _, _, _, rfl, rfl, -, -, -, -, -, -, -, -, hb⟩⟩ :=
    second_invocation_reuses_descriptor ⟨some 100, 0, LIBUSB_TRANSFER_STALL, 0⟩
      ⟨none, 0, LIBUSB_TRANSFER_COMPLETED, 5⟩
      (USBControlTransfer.create 1) (USBBulkTransfer.create 2)
      5 (some [128, 6, 0, 1, 0, 0, 64, 0]) 129 ⟨some [0, 0], 2⟩ (Duration.signed 1 1 1)
      6 [128, 6, 0, 2, 0, 0, 9, 0] 1 ⟨some [7], 1⟩ (Duration.signed 2 1 1) (Or.inr rfl) (Or.inr rfl)
  exact ⟨hc, hb⟩

/-! ## The error descriptions -/

/-- C10: the description of a transfer status is a total function of the code alone: it is
never empty, the error value built from a status carries that status unchanged and is described
by the description of the status, the seven enumerated statuses have the seven expected and
pairwise distinct descriptions, and every other code is described as unknown. -/
theorem transfer_message_total_pure :
    (∀ code : Int, transfer_message code ≠ "") ∧
    (∀ (name : Int → String) (status : Int),
      (make_error_transfer status).value = status ∧
      Error.message name (make_error_transfer status) = transfer_message status) ∧
    transfer_message LIBUSB_TRANSFER_COMPLETED = "transfer completed" ∧
    transfer_message LIBUSB_TRANSFER_ERROR = "transfer error" ∧
    transfer_message LIBUSB_TRANSFER_TIMED_OUT = "transfer timeout" ∧
    transfer_message LIBUSB_TRANSFER_CANCELLED = "transfer cancelled" ∧
    transfer_message LIBUSB_TRANSFER_STALL = "transfer stall" ∧
    transfer_message LIBUSB_TRANSFER_NO_DEVICE = "transfer no device" ∧
    transfer_message LIBUSB_TRANSFER_OVERFLOW = "transfer overflow" ∧
    ([LIBUSB_TRANSFER_COMPLETED, LIBUSB_TRANSFER_ERROR, LIBUSB_TRANSFER_TIMED_OUT,
      LIBUSB_TRANSFER_CANCELLED, LIBUSB_TRANSFER_STALL, LIBUSB_TRANSFER_NO_DEVICE,
      LIBUSB_TRANSFER_OVERFLOW].map transfer_message).Nodup ∧
    (∀ code : Int, (code < 0 ∨ 6 < code) → transfer_message code = "unknown transfer status") := by
  refine ⟨?_, ?_, by decide, by decide, by decide, by decide, by decide, by decide, by decide,
    by decide, ?_⟩
  · intro code
    unfold transfer_message
    split_ifs <;> decide
  · intro name status
    exact ⟨rfl, rfl⟩
  · intro code h
    unfold transfer_message LIBUSB_TRANSFER_COMPLETED LIBUSB_TRANSFER_ERROR
      LIBUSB_TRANSFER_TIMED_OUT LIBUSB_TRANSFER_CANCELLED LIBUSB_TRANSFER_STALL
      LIBUSB_TRANSFER_NO_DEVICE LIBUSB_TRANSFER_OVERFLOW
    split_ifs <;> first | rfl | omega

end jinx.usb
